import Mathlib

/-!
Verification development for the LedgrStack double-entry ledger core.

The TypeScript ledger service (ledgerService: `ensureDefaultAccounts`,
`createExpenseTransaction`, `reverseTransaction`, `guardPeriodNotLocked`,
`lockPeriod`) and the report aggregator (`getLedgerReport`) are shallowly
embedded over an explicit database state.

Modelling conventions:
* Row identifiers (Prisma cuids) become `Nat`, generated from a counter.
* Monetary amounts (`amountCents`) become `Int` — the code only ever adds
  and compares them, which is exact for JS numbers in the ledger's range.
* `Date` values become `UtcDate` (UTC calendar fields, which is what
  `toISOString` exposes).
* Fallible operations return `Except String` carrying the exact message of
  the `Error` thrown by the source.
* The service functions accept either an ambient Prisma transaction handle
  (`tx`) or open their own via `prisma.$transaction`.  The state `St` keeps
  two database snapshots: `committed` (what the global Prisma client reads
  and writes — its single-statement writes and its own `$transaction`
  blocks commit immediately) and `current` (the view of the ambient open
  transaction, i.e. committed state plus that transaction's uncommitted
  writes).  `runTx` models `prisma.$transaction`: on success the pending
  view commits, on a thrown error it is discarded and the state rolls back
  to what was committed — which includes writes made through the global
  client while the transaction was open, exactly as in Prisma, where
  `createAuditLog` and `ensureDefaultAccounts` use the global `prisma`
  object and therefore escape the ambient transaction.
* `randomUUID()` and `new Date()` in `reverseTransaction` are
  nondeterministic inputs; they are passed as explicit parameters.
* Audit-log `metadata` JSON blobs are not modelled; no claim inspects them.
-/

namespace LedgrStack

/-- `AccountType` enum from the Prisma schema. -/
inductive AccountType where
  | ASSET | LIABILITY | EQUITY | INCOME | EXPENSE
deriving DecidableEq, Repr

/-- `PostingDirection` enum from the Prisma schema (DR = debit, CR = credit). -/
inductive PostingDirection where
  | DR | CR
deriving DecidableEq, Repr

/-- A calendar date in UTC, the part of a JS `Date` that the ledger reads
(`toISOString().slice(0, 7)` and range comparisons). -/
structure UtcDate where
  year : Nat
  month : Nat
  day : Nat
deriving DecidableEq, Repr

/-- `LedgerAccount` row. -/
structure LedgerAccount where
  id : Nat
  organizationId : String
  name : String
  type : AccountType
  currency : String
  isSystem : Bool
  code : String
deriving DecidableEq, Repr

/-- `LedgerTransaction` row. -/
structure LedgerTransaction where
  id : Nat
  organizationId : String
  occurredAt : UtcDate
  description : String
  vendor : Option String
  idempotencyKey : String
  createdByUserId : String
  originalTransactionId : Option Nat
  reversedByTransactionId : Option Nat
deriving DecidableEq, Repr

/-- `LedgerPosting` row. -/
structure LedgerPosting where
  organizationId : String
  transactionId : Nat
  accountId : Nat
  direction : PostingDirection
  amountCents : Int
  currency : String
  category : Option String
  memo : Option String
deriving DecidableEq, Repr

/-- `LedgerPeriodLock` row. -/
structure LedgerPeriodLock where
  organizationId : String
  period : String
  lockedByUserId : String
deriving DecidableEq, Repr

/-- `AuditLog` row (metadata JSON omitted; no claim inspects it). -/
structure AuditLog where
  organizationId : String
  userId : String
  action : String
  entityType : String
  entityId : Option Nat
deriving DecidableEq, Repr

/-- The database: one list per table, plus the id-generation counter. -/
structure DB where
  accounts : List LedgerAccount
  transactions : List LedgerTransaction
  postings : List LedgerPosting
  periodLocks : List LedgerPeriodLock
  auditLogs : List AuditLog
  nextId : Nat
deriving DecidableEq, Repr

/-- Execution state: `committed` is what the global Prisma client sees,
`current` is the view of the ambient open transaction (equal to `committed`
whenever no ambient transaction is open). -/
structure St where
  committed : DB
  current : DB
deriving DecidableEq, Repr

/-- Top-level state: no ambient transaction open, both views agree. -/
def St.init (db : DB) : St := ⟨db, db⟩

/-- Row insertion helpers. -/
def DB.insertAccount (db : DB) (a : LedgerAccount) : DB :=
  { db with accounts := db.accounts ++ [a] }

def DB.insertTransaction (db : DB) (t : LedgerTransaction) : DB :=
  { db with transactions := db.transactions ++ [t] }

def DB.insertPostings (db : DB) (ps : List LedgerPosting) : DB :=
  { db with postings := db.postings ++ ps }

def DB.insertLock (db : DB) (l : LedgerPeriodLock) : DB :=
  { db with periodLocks := db.periodLocks ++ [l] }

def DB.insertAudit (db : DB) (e : AuditLog) : DB :=
  { db with auditLogs := db.auditLogs ++ [e] }

def DB.bumpId (db : DB) (n : Nat) : DB := { db with nextId := n }

/-- `prisma.ledgerTransaction.update({where: {id}, data: {reversedByTransactionId}})`. -/
def DB.setReversedBy (db : DB) (transactionId reversalId : Nat) : DB :=
  { db with transactions := db.transactions.map fun t =>
      if t.id == transactionId then { t with reversedByTransactionId := some reversalId } else t }

/-- `ledgerAccount.findUnique({where: {organizationId_name}})`. -/
def findAccountByName (db : DB) (organizationId name : String) : Option LedgerAccount :=
  db.accounts.find? fun a => a.organizationId == organizationId && a.name == name

/-- `ledgerTransaction.findUnique({where: {organizationId_idempotencyKey}})`. -/
def findTransactionByIdempotencyKey (db : DB) (organizationId idempotencyKey : String) :
    Option LedgerTransaction :=
  db.transactions.find? fun t =>
    t.organizationId == organizationId && t.idempotencyKey == idempotencyKey

/-- `ledgerPeriodLock.findUnique({where: {organizationId_period}})`. -/
def findPeriodLock (db : DB) (organizationId period : String) : Option LedgerPeriodLock :=
  db.periodLocks.find? fun l => l.organizationId == organizationId && l.period == period

/-- Create a row through the global client (or inside a `$transaction` that
always commits): the row, with a fresh id, becomes visible in both views. -/
def St.globalAccountCreate (st : St) (mk : Nat → LedgerAccount) : LedgerAccount × St :=
  let a := mk st.current.nextId
  let n := st.current.nextId + 1
  (a, ⟨(st.committed.insertAccount a).bumpId n, (st.current.insertAccount a).bumpId n⟩)

/-- Audit-row insertion through the global client. -/
def St.globalAudit (st : St) (e : AuditLog) : St :=
  ⟨st.committed.insertAudit e, st.current.insertAudit e⟩

/-- Create an account through the ambient transaction handle: visible only
in the `current` view until that transaction commits. -/
def St.txAccountCreate (st : St) (mk : Nat → LedgerAccount) : LedgerAccount × St :=
  let a := mk st.current.nextId
  (a, ⟨st.committed, (st.current.insertAccount a).bumpId (st.current.nextId + 1)⟩)

/-- Create a transaction row through the ambient transaction handle. -/
def St.txTransactionCreate (st : St) (mk : Nat → LedgerTransaction) : LedgerTransaction × St :=
  let t := mk st.current.nextId
  (t, ⟨st.committed, (st.current.insertTransaction t).bumpId (st.current.nextId + 1)⟩)

/-- `ledgerPosting.createMany` through the ambient transaction handle. -/
def St.txPostingsCreateMany (st : St) (ps : List LedgerPosting) : St :=
  ⟨st.committed, st.current.insertPostings ps⟩

/-- `ledgerTransaction.update` through the ambient transaction handle. -/
def St.txSetReversedBy (st : St) (transactionId reversalId : Nat) : St :=
  ⟨st.committed, st.current.setReversedBy transactionId reversalId⟩

/-- `prisma.$transaction(body)`: commit the pending view on success, discard
it on error (global-client writes made meanwhile stay committed). -/
def runTx {α : Type} (body : St → Except String α × St) (st : St) : Except String α × St :=
  match body st with
  | (Except.ok a, st') => (Except.ok a, ⟨st'.current, st'.current⟩)
  | (Except.error e, st') => (Except.error e, ⟨st'.committed, st'.committed⟩)

/-- `createAuditLog` (lib/audit-log.ts): writes through the global `prisma`
client — outside any ambient transaction — and never throws. -/
def createAuditLog (st : St) (organizationId userId action entityType : String)
    (entityId : Option Nat) : St :=
  st.globalAudit { organizationId, userId, action, entityType, entityId }

/-- One check-and-create block of `ensureDefaultAccounts`: look the system
account up in committed state; if absent, create it through the (always
committing) `$transaction` on the global client and emit an audit event. -/
def ensureSystemAccount (organizationId name : String) (ty : AccountType) (code : String)
    (st : St) : St :=
  match findAccountByName st.committed organizationId name with
  | some _ => st
  | none =>
    let (_, st') := st.globalAccountCreate fun i =>
      { id := i, organizationId, name, type := ty, currency := "USD", isSystem := true, code }
    createAuditLog st' organizationId "system" "ACCOUNT_CREATED" "LedgerAccount" none

/-- `ensureDefaultAccounts` (ledgerService): runs `prisma.$transaction` on the
global client — reads committed state, creates the `Cash` and
`Uncategorized Expense` system accounts if absent, emits an audit event per
account created.  Its body never throws, so it always commits. -/
def ensureDefaultAccounts (organizationId : String) (st : St) : St :=
  ensureSystemAccount organizationId "Uncategorized Expense" AccountType.EXPENSE "UNCAT_EXP"
    (ensureSystemAccount organizationId "Cash" AccountType.ASSET "CASH" st)

/-- JS falsiness of `category` in `if (!category)` and `category || null`:
`null`, `undefined` and the empty string are all falsy. -/
def jsFalsyString : Option String → Bool
  | none => true
  | some s => s == ""

/-- `x || null` on an optional string field. -/
def jsStrOrNull : Option String → Option String
  | none => none
  | some s => if s == "" then none else some s

/-- `category.toUpperCase().replace(/[^A-Z0-9]/g, "_")` (ASCII reading). -/
def expenseCategoryCode (category : String) : String :=
  String.mk (category.toUpper.data.map fun c =>
    if ('A' ≤ c && c ≤ 'Z') || ('0' ≤ c && c ≤ '9') then c else '_')

/-- `getOrCreateExpenseAccount(tx, organizationId, category)`: runs on the
ambient transaction handle. -/
def getOrCreateExpenseAccount (organizationId : String) (category : Option String) (st : St) :
    Except String Nat × St :=
  if jsFalsyString category then
    match findAccountByName st.current organizationId "Uncategorized Expense" with
    | none =>
      (Except.error "Uncategorized Expense account not found. Run ensureDefaultAccounts first.", st)
    | some uncategorized => (Except.ok uncategorized.id, st)
  else
    let cat := category.getD ""
    match findAccountByName st.current organizationId ("Expense: " ++ cat) with
    | some existing => (Except.ok existing.id, st)
    | none =>
      let (newAccount, st') := st.txAccountCreate fun i =>
        { id := i, organizationId, name := "Expense: " ++ cat, type := AccountType.EXPENSE,
          currency := "USD", isSystem := false, code := "EXP_" ++ expenseCategoryCode cat }
      (Except.ok newAccount.id, st')

/-- `getCashAccount(tx, organizationId)`: read-only on the ambient handle. -/
def getCashAccount (organizationId : String) (st : St) : Except String Nat :=
  match findAccountByName st.current organizationId "Cash" with
  | none => Except.error "Cash account not found. Run ensureDefaultAccounts first."
  | some cashAccount => Except.ok cashAccount.id

/-- Input record of `createExpenseTransaction`. -/
structure CreateExpenseTransactionInput where
  organizationId : String
  occurredAt : UtcDate
  description : String
  amountCents : Int
  category : Option String
  vendor : Option String
  idempotencyKey : String
  createdByUserId : String
  currency : Option String
deriving DecidableEq, Repr

/-- The `execute` closure of `createExpenseTransaction`: runs against the
ambient transaction handle `prismaTx`, except that `ensureDefaultAccounts`
and `createAuditLog` go through the global client. -/
def createExpenseExecute (input : CreateExpenseTransactionInput) (st : St) :
    Except String Nat × St :=
  let currency := input.currency.getD "USD"
  match findTransactionByIdempotencyKey st.current input.organizationId input.idempotencyKey with
  | some existing => (Except.ok existing.id, st)
  | none =>
    let st := ensureDefaultAccounts input.organizationId st
    match getOrCreateExpenseAccount input.organizationId input.category st with
    | (Except.error e, st) => (Except.error e, st)
    | (Except.ok expenseAccountId, st) =>
      match getCashAccount input.organizationId st with
      | Except.error e => (Except.error e, st)
      | Except.ok cashAccountId =>
        let (transaction, st) := st.txTransactionCreate fun i =>
          { id := i, organizationId := input.organizationId, occurredAt := input.occurredAt,
            description := input.description, vendor := jsStrOrNull input.vendor,
            idempotencyKey := input.idempotencyKey, createdByUserId := input.createdByUserId,
            originalTransactionId := none, reversedByTransactionId := none }
        let st := st.txPostingsCreateMany
          [ { organizationId := input.organizationId, transactionId := transaction.id,
              accountId := expenseAccountId, direction := PostingDirection.DR,
              amountCents := input.amountCents, currency,
              category := jsStrOrNull input.category, memo := some input.description },
            { organizationId := input.organizationId, transactionId := transaction.id,
              accountId := cashAccountId, direction := PostingDirection.CR,
              amountCents := input.amountCents, currency,
              category := none, memo := some input.description } ]
        let verify := st.current.postings.filter fun p => p.transactionId == transaction.id
        let drTotal := (verify.filter fun p => p.direction == PostingDirection.DR).foldl
          (fun sum p => sum + p.amountCents) 0
        let crTotal := (verify.filter fun p => p.direction == PostingDirection.CR).foldl
          (fun sum p => sum + p.amountCents) 0
        if drTotal != crTotal then
          (Except.error ("Transaction imbalance: DR=" ++ toString drTotal ++ ", CR="
            ++ toString crTotal), st)
        else
          let st := createAuditLog st input.organizationId input.createdByUserId
            "LEDGER_TX_CREATED" "LedgerTransaction" (some transaction.id)
          (Except.ok transaction.id, st)

/-- `createExpenseTransaction(input, tx?)`: with an ambient handle supplied
(`hasTx = true`) it runs `execute(tx)` directly; otherwise it opens its own
`prisma.$transaction(execute)`. -/
def createExpenseTransaction (input : CreateExpenseTransactionInput) (hasTx : Bool) (st : St) :
    Except String Nat × St :=
  if hasTx then createExpenseExecute input st else runTx (createExpenseExecute input) st

/-- Input record of `reverseTransaction`. -/
structure ReverseTransactionInput where
  organizationId : String
  transactionId : Nat
  reason : String
  createdByUserId : String
deriving DecidableEq, Repr

/-- The `execute` closure of `reverseTransaction`.  `now` models
`new Date()` and `uuid` models `randomUUID()`. -/
def reverseExecute (input : ReverseTransactionInput) (now : UtcDate) (uuid : String) (st : St) :
    Except String Nat × St :=
  match st.current.transactions.find? (fun t => t.id == input.transactionId) with
  | none => (Except.error "Transaction not found", st)
  | some originalTx =>
    let originalPostings := st.current.postings.filter fun p =>
      p.transactionId == input.transactionId
    if originalTx.organizationId != input.organizationId then
      (Except.error "Organization mismatch", st)
    else if originalTx.reversedByTransactionId.isSome then
      (Except.error "Transaction already reversed", st)
    else
      match st.current.transactions.find? (fun t =>
          t.originalTransactionId == some input.transactionId &&
          t.organizationId == input.organizationId) with
      | some existingReversal => (Except.ok existingReversal.id, st)
      | none =>
        let (reversalTx, st) := st.txTransactionCreate fun i =>
          { id := i, organizationId := input.organizationId, occurredAt := now,
            description := "Reversal: " ++ originalTx.description, vendor := originalTx.vendor,
            idempotencyKey := "reversal:" ++ toString input.transactionId ++ ":" ++ uuid,
            createdByUserId := input.createdByUserId,
            originalTransactionId := some input.transactionId,
            reversedByTransactionId := none }
        let reversalPostings := originalPostings.map fun p =>
          { organizationId := input.organizationId, transactionId := reversalTx.id,
            accountId := p.accountId,
            direction := if p.direction == PostingDirection.DR then PostingDirection.CR
              else PostingDirection.DR,
            amountCents := p.amountCents, currency := p.currency,
            memo := some ("Reversal: " ++ p.memo.getD "" ++ " - " ++ input.reason),
            category := p.category : LedgerPosting }
        let st := st.txPostingsCreateMany reversalPostings
        let st := st.txSetReversedBy input.transactionId reversalTx.id
        let st := createAuditLog st input.organizationId input.createdByUserId
          "LEDGER_TX_REVERSED" "LedgerTransaction" (some reversalTx.id)
        (Except.ok reversalTx.id, st)

/-- `reverseTransaction(input, tx?)`. -/
def reverseTransaction (input : ReverseTransactionInput) (now : UtcDate) (uuid : String)
    (hasTx : Bool) (st : St) : Except String Nat × St :=
  if hasTx then reverseExecute input now uuid st else runTx (reverseExecute input now uuid) st

/-- Two-digit zero padding, as produced inside `toISOString()`. -/
def pad2 (n : Nat) : String := if n < 10 then "0" ++ toString n else toString n

/-- Four-digit zero padding for the year of `toISOString()`. -/
def pad4 (n : Nat) : String :=
  if n < 10 then "000" ++ toString n
  else if n < 100 then "00" ++ toString n
  else if n < 1000 then "0" ++ toString n
  else toString n

/-- `occurredAt.toISOString().slice(0, 7)` — the `YYYY-MM` period key. -/
def isoPeriod (d : UtcDate) : String := pad4 d.year ++ "-" ++ pad2 d.month

/-- `guardPeriodNotLocked(organizationId, occurredAt)`: reads through the
global client; throws iff a lock row exists for (tenant, period); performs
no writes (the return type records that: no state is produced). -/
def guardPeriodNotLocked (organizationId : String) (occurredAt : UtcDate) (st : St) :
    Except String Unit :=
  let period := isoPeriod occurredAt
  match findPeriodLock st.committed organizationId period with
  | some _ => Except.error ("Period " ++ period ++ " is locked and cannot be modified")
  | none => Except.ok ()

/-- `lockPeriod(organizationId, period, lockedByUserId)`: its own
`prisma.$transaction` on the global client; a no-op when already locked. -/
def lockPeriod (organizationId period lockedByUserId : String) (st : St) : St :=
  match findPeriodLock st.committed organizationId period with
  | some _ => st
  | none =>
    let st' : St :=
      ⟨st.committed.insertLock { organizationId, period, lockedByUserId },
       st.current.insertLock { organizationId, period, lockedByUserId }⟩
    createAuditLog st' organizationId lockedByUserId "PERIOD_LOCKED" "LedgerPeriodLock" none

/-- Date comparison (`gte`/`lte` on `occurredAt`), i.e. the epoch order of
the underlying instants, restricted to calendar dates. -/
def UtcDate.le (a b : UtcDate) : Bool :=
  a.year < b.year ||
    (a.year == b.year && (a.month < b.month || (a.month == b.month && a.day ≤ b.day)))

/-- Result of the no-`groupBy` branch of `getLedgerReport`. -/
structure ReportTotals where
  total : Rat
  count : Nat
deriving DecidableEq, Repr

/-- `getLedgerReport` (report aggregator), default branch (`groupBy`
absent): select the tenant's non-reversed transactions matching the
date-range and vendor filters, attach their DR postings matching the
category filter, keep the transactions with at least one such posting, and
return the summed amount converted from cents to dollars (JS `total / 100`,
modelled exactly over `Rat`), together with the count.  `if (vendor)` and
the `category ? {category} : {}` spread skip falsy (empty-string) values. -/
def getLedgerReportTotal (db : DB) (organizationId : String)
    (startDate endDate : Option UtcDate) (category vendor : Option String) : ReportTotals :=
  let transactions := db.transactions.filter fun t =>
    t.organizationId == organizationId &&
    t.reversedByTransactionId.isNone &&
    (match startDate with | some s => UtcDate.le s t.occurredAt | none => true) &&
    (match endDate with | some e => UtcDate.le t.occurredAt e | none => true) &&
    (match vendor with
     | some v => if v == "" then true else t.vendor == some v
     | none => true)
  let withPostings := transactions.map fun t =>
    (t, db.postings.filter fun p =>
      p.transactionId == t.id && p.direction == PostingDirection.DR &&
      (match category with
       | some c => if c == "" then true else p.category == some c
       | none => true))
  let expenseTransactions := withPostings.filter fun tp => tp.2.length > 0
  let total : Int := expenseTransactions.foldl
    (fun sum tp => sum + tp.2.foldl (fun s p => s + p.amountCents) 0) 0
  { total := (total : Rat) / 100, count := expenseTransactions.length }

/-- API-edge validation `expenseSchema` (lib/validations.ts): the `amount`
field must be positive (`z.coerce.number().positive()`).  Only the amount
rule is modelled; no claim touches the other fields. -/
def expenseSchemaAmountOk (amount : Rat) : Bool := decide (0 < amount)

/-- Well-formed database: the id counter dominates every stored id, and
transaction ids are unique (Prisma primary keys). -/
def DB.wf (db : DB) : Prop :=
  (∀ a ∈ db.accounts, a.id < db.nextId) ∧
  (∀ t ∈ db.transactions, t.id < db.nextId) ∧
  (∀ p ∈ db.postings, p.transactionId < db.nextId) ∧
  (db.transactions.map fun t => t.id).Nodup

instance (db : DB) : Decidable db.wf := by unfold DB.wf; infer_instance

/-- Sum of the DR posting amounts of one transaction in one currency. -/
def drTotalFor (db : DB) (transactionId : Nat) (currency : String) : Int :=
  ((db.postings.filter fun p =>
      p.transactionId == transactionId && p.direction == PostingDirection.DR &&
      p.currency == currency).map fun p => p.amountCents).sum

/-- Sum of the CR posting amounts of one transaction in one currency. -/
def crTotalFor (db : DB) (transactionId : Nat) (currency : String) : Int :=
  ((db.postings.filter fun p =>
      p.transactionId == transactionId && p.direction == PostingDirection.CR &&
      p.currency == currency).map fun p => p.amountCents).sum

/-- The double-entry invariant: every transaction balances per currency. -/
def DB.balanced (db : DB) : Prop :=
  ∀ t ∈ db.transactions, ∀ currency : String,
    drTotalFor db t.id currency = crTotalFor db t.id currency

/-- The name the expense leg resolves to for a category input. -/
def expenseAccountNameFor (category : Option String) : String :=
  if jsFalsyString category then "Uncategorized Expense" else "Expense: " ++ category.getD ""

/-! ### Row builders (the record literals appearing in the service code,
as named abbreviations used by the normal-form lemmas) -/

/-- The category expense account row created by `getOrCreateExpenseAccount`. -/
def categoryAccountRow (organizationId cat : String) (i : Nat) : LedgerAccount :=
  { id := i, organizationId, name := "Expense: " ++ cat, type := AccountType.EXPENSE,
    currency := "USD", isSystem := false, code := "EXP_" ++ expenseCategoryCode cat }

/-- The transaction row created by `createExpenseTransaction`. -/
def expenseTxnRow (input : CreateExpenseTransactionInput) (i : Nat) : LedgerTransaction :=
  { id := i, organizationId := input.organizationId, occurredAt := input.occurredAt,
    description := input.description, vendor := jsStrOrNull input.vendor,
    idempotencyKey := input.idempotencyKey, createdByUserId := input.createdByUserId,
    originalTransactionId := none, reversedByTransactionId := none }

/-- The DR (expense-account) posting created by `createExpenseTransaction`. -/
def expenseDrRow (input : CreateExpenseTransactionInput) (txId acctId : Nat) : LedgerPosting :=
  { organizationId := input.organizationId, transactionId := txId, accountId := acctId,
    direction := PostingDirection.DR, amountCents := input.amountCents,
    currency := input.currency.getD "USD", category := jsStrOrNull input.category,
    memo := some input.description }

/-- The CR (cash-account) posting created by `createExpenseTransaction`. -/
def expenseCrRow (input : CreateExpenseTransactionInput) (txId acctId : Nat) : LedgerPosting :=
  { organizationId := input.organizationId, transactionId := txId, accountId := acctId,
    direction := PostingDirection.CR, amountCents := input.amountCents,
    currency := input.currency.getD "USD", category := none, memo := some input.description }

/-- The audit row emitted by `createExpenseTransaction`. -/
def expenseAuditRow (input : CreateExpenseTransactionInput) (txId : Nat) : AuditLog :=
  { organizationId := input.organizationId, userId := input.createdByUserId,
    action := "LEDGER_TX_CREATED", entityType := "LedgerTransaction", entityId := some txId }

/-- The reversal transaction row created by `reverseTransaction`. -/
def reversalTxnRow (input : ReverseTransactionInput) (originalTx : LedgerTransaction)
    (now : UtcDate) (uuid : String) (i : Nat) : LedgerTransaction :=
  { id := i, organizationId := input.organizationId, occurredAt := now,
    description := "Reversal: " ++ originalTx.description, vendor := originalTx.vendor,
    idempotencyKey := "reversal:" ++ toString input.transactionId ++ ":" ++ uuid,
    createdByUserId := input.createdByUserId,
    originalTransactionId := some input.transactionId, reversedByTransactionId := none }

/-- The direction-flipped offsetting posting created by `reverseTransaction`. -/
def reversalPostingRow (input : ReverseTransactionInput) (reversalId : Nat)
    (p : LedgerPosting) : LedgerPosting :=
  { organizationId := input.organizationId, transactionId := reversalId,
    accountId := p.accountId,
    direction := if p.direction == PostingDirection.DR then PostingDirection.CR
      else PostingDirection.DR,
    amountCents := p.amountCents, currency := p.currency,
    memo := some ("Reversal: " ++ p.memo.getD "" ++ " - " ++ input.reason),
    category := p.category }

/-- The audit row emitted by `reverseTransaction`. -/
def reversalAuditRow (input : ReverseTransactionInput) (reversalId : Nat) : AuditLog :=
  { organizationId := input.organizationId, userId := input.createdByUserId,
    action := "LEDGER_TX_REVERSED", entityType := "LedgerTransaction",
    entityId := some reversalId }

/-- Replace the period-lock table, leaving every other table untouched
(used to state that the ledger operations ignore period locks). -/
def DB.withLocks (db : DB) (locks : List LedgerPeriodLock) : DB :=
  { db with periodLocks := locks }

/-- Replace the period-lock table in both views of the state. -/
def St.withLocks (st : St) (locks : List LedgerPeriodLock) : St :=
  ⟨st.committed.withLocks locks, st.current.withLocks locks⟩

/-- Claim-side sum for the no-filter report: the DEBIT posting amounts of
all of the tenant's transactions whose reversal link is null, in minor
units (this definition follows the specification sentence; the theorem for
the report claim compares `getLedgerReportTotal` against it). -/
def specNoFilterReportMinorUnits (db : DB) (organizationId : String) : Int :=
  ((db.transactions.filter fun t =>
      t.organizationId == organizationId && t.reversedByTransactionId.isNone).map fun t =>
    ((db.postings.filter fun p =>
        p.transactionId == t.id && p.direction == PostingDirection.DR).map
      fun p => p.amountCents).sum).sum

/-! ### Concrete sample data for witnesses and counterexamples -/

/-- The empty database. -/
def emptyDB : DB := ⟨[], [], [], [], [], 0⟩

/-- A concrete expense input (the spec's §8 scenario). -/
def sampleInput : CreateExpenseTransactionInput :=
  { organizationId := "org1", occurredAt := ⟨2024, 1, 15⟩, description := "Lunch",
    amountCents := 12550, category := some "Food", vendor := none,
    idempotencyKey := "expense:abc", createdByUserId := "u1", currency := none }

/-- A retry of `sampleInput` with the same tenant and idempotency key but
different other arguments. -/
def sampleRetryInput : CreateExpenseTransactionInput :=
  { organizationId := "org1", occurredAt := ⟨2024, 1, 20⟩, description := "Other",
    amountCents := 999, category := none, vendor := some "Acme",
    idempotencyKey := "expense:abc", createdByUserId := "u7", currency := some "EUR" }

/-- A negative-amount expense input for the no-positivity claim. -/
def sampleNegativeInput : CreateExpenseTransactionInput :=
  { organizationId := "org1", occurredAt := ⟨2024, 1, 15⟩, description := "Refund",
    amountCents := -500, category := none, vendor := none,
    idempotencyKey := "expense:neg", createdByUserId := "u1", currency := none }

/-- The database after recording `sampleInput` on an empty store. -/
def sampleDb1 : DB := (createExpenseTransaction sampleInput false (St.init emptyDB)).2.current

/-- Reversal request for the transaction created by `sampleInput` (id 3). -/
def sampleRevInput : ReverseTransactionInput :=
  { organizationId := "org1", transactionId := 3, reason := "duplicate",
    createdByUserId := "u2" }

/-- The database after additionally reversing that transaction. -/
def sampleDb2 : DB :=
  (reverseTransaction sampleRevInput ⟨2024, 2, 1⟩ "uuid-1" false (St.init sampleDb1)).2.current

/-- A caller-supplied unit of work that calls `createExpenseTransaction`
with its transaction handle and then throws, aborting the whole unit. -/
def callerAbortAfterCreate (input : CreateExpenseTransactionInput) (st : St) :
    Except String Nat × St :=
  runTx (fun st0 =>
    match createExpenseTransaction input true st0 with
    | (Except.ok _, st1) => (Except.error "caller abort", st1)
    | (Except.error e, st1) => (Except.error e, st1)) st

/-! ## Proof infrastructure -/

/-- A JS `reduce`-style fold adding one projected field is the sum of the
projections. -/
theorem foldl_add_eq_sum {α : Type} (f : α → Int) (l : List α) (i : Int) :
    l.foldl (fun s x => s + f x) i = i + (l.map f).sum := by
  induction l generalizing i with
  | nil => simp
  | cons x xs ih => simp [List.foldl_cons, ih (i + f x), add_assoc]

/-- Category expense-account names never collide with the Cash account. -/
theorem expense_name_ne_cash (cat : String) : (("Expense: " ++ cat) == "Cash") = false := by
  rw [beq_eq_false_iff_ne]
  intro h
  have hlen := congrArg String.length h
  rw [String.length_append] at hlen
  have h9 : ("Expense: ").length = 9 := rfl
  have h4 : ("Cash").length = 4 := rfl
  omega

/-- Shape of one `ensureSystemAccount` block started from a top-level
state: it stays top-level, only appends at most one account and one audit
row, and afterwards the requested account is present; lookups of
differently-named accounts are untouched. -/
theorem ensureSystemAccount_nf (organizationId name : String) (ty : AccountType)
    (code : String) (db : DB) :
    ∃ db' : DB,
      ensureSystemAccount organizationId name ty code (St.init db) = St.init db' ∧
      db'.transactions = db.transactions ∧
      db'.postings = db.postings ∧
      db'.periodLocks = db.periodLocks ∧
      (∃ na, db'.accounts = db.accounts ++ na) ∧
      (∃ nl, db'.auditLogs = db.auditLogs ++ nl) ∧
      db.nextId ≤ db'.nextId ∧
      (findAccountByName db' organizationId name).isSome = true ∧
      (∀ n', (name == n') = false →
        ∀ o, findAccountByName db' o n' = findAccountByName db o n') := by
  cases h1 : findAccountByName db organizationId name with
  | some acct =>
    refine ⟨db, ?_, rfl, rfl, rfl, ⟨[], by simp⟩, ⟨[], by simp⟩, le_refl _, ?_, ?_⟩
    · simp [ensureSystemAccount, St.init, h1]
    · rw [h1]; rfl
    · intro n' _ o; rfl
  | none =>
    refine ⟨((db.insertAccount
        { id := db.nextId, organizationId, name, type := ty, currency := "USD",
          isSystem := true, code }).bumpId (db.nextId + 1)).insertAudit
        { organizationId, userId := "system", action := "ACCOUNT_CREATED",
          entityType := "LedgerAccount", entityId := none }, ?_, rfl, rfl, rfl,
        ⟨_, rfl⟩, ⟨_, rfl⟩, ?_, ?_, ?_⟩
    · simp [ensureSystemAccount, St.init, h1, St.globalAccountCreate, createAuditLog,
        St.globalAudit, DB.insertAccount, DB.insertAudit, DB.bumpId]
    · simp [DB.insertAccount, DB.insertAudit, DB.bumpId]
    · simp only [findAccountByName, DB.insertAccount, DB.insertAudit, DB.bumpId,
        List.find?_append]
      rw [show db.accounts.find?
          (fun a => a.organizationId == organizationId && a.name == name) =
        findAccountByName db organizationId name from rfl, h1]
      simp
    · intro n' hne o
      simp only [findAccountByName, DB.insertAccount, DB.insertAudit, DB.bumpId,
        List.find?_append]
      have : (List.find? (fun a => a.organizationId == o && a.name == n')
          [({ id := db.nextId, organizationId, name, type := ty, currency := "USD",
              isSystem := true, code } : LedgerAccount)]) = none := by
        simp [List.find?, hne]
      rw [this]
      simp [findAccountByName]

/-- Shape of `ensureDefaultAccounts` started from a top-level state: it
stays top-level, only appends accounts and audit rows, and afterwards both
system accounts are present. -/
theorem ensureDefaultAccounts_nf (organizationId : String) (db : DB) :
    ∃ db' : DB,
      ensureDefaultAccounts organizationId (St.init db) = St.init db' ∧
      db'.transactions = db.transactions ∧
      db'.postings = db.postings ∧
      db'.periodLocks = db.periodLocks ∧
      (∃ na, db'.accounts = db.accounts ++ na) ∧
      (∃ nl, db'.auditLogs = db.auditLogs ++ nl) ∧
      db.nextId ≤ db'.nextId ∧
      (findAccountByName db' organizationId "Cash").isSome = true ∧
      (findAccountByName db' organizationId "Uncategorized Expense").isSome = true := by
  obtain ⟨d1, he1, ht1, hp1, hl1, ⟨na1, ha1⟩, ⟨nl1, hau1⟩, hn1, hcash1, hpres1⟩ :=
    ensureSystemAccount_nf organizationId "Cash" AccountType.ASSET "CASH" db
  obtain ⟨d2, he2, ht2, hp2, hl2, ⟨na2, ha2⟩, ⟨nl2, hau2⟩, hn2, hunc2, hpres2⟩ :=
    ensureSystemAccount_nf organizationId "Uncategorized Expense" AccountType.EXPENSE
      "UNCAT_EXP" d1
  refine ⟨d2, ?_, ?_, ?_, ?_, ⟨na1 ++ na2, ?_⟩, ⟨nl1 ++ nl2, ?_⟩, ?_, ?_, hunc2⟩
  · rw [ensureDefaultAccounts, he1, he2]
  · rw [ht2, ht1]
  · rw [hp2, hp1]
  · rw [hl2, hl1]
  · rw [ha2, ha1, List.append_assoc]
  · rw [hau2, hau1, List.append_assoc]
  · exact le_trans hn1 hn2
  · rw [hpres2 "Cash" (by decide) organizationId]; exact hcash1

/-- Shape of `getOrCreateExpenseAccount` when the bootstrap has run (the
Uncategorized Expense account exists): it succeeds with the id of the
account named `expenseAccountNameFor category`, touches nothing but (at
most) appending one account to the ambient transaction's view, and leaves
the Cash lookup unchanged. -/
theorem getOrCreateExpenseAccount_nf (organizationId : String) (category : Option String)
    (d : DB)
    (huncat : (findAccountByName d organizationId "Uncategorized Expense").isSome = true) :
    ∃ (ea : LedgerAccount) (d2 : DB),
      getOrCreateExpenseAccount organizationId category (St.init d) =
        (Except.ok ea.id, ⟨d, d2⟩) ∧
      findAccountByName d2 organizationId (expenseAccountNameFor category) = some ea ∧
      d2.transactions = d.transactions ∧
      d2.postings = d.postings ∧
      d2.periodLocks = d.periodLocks ∧
      d2.auditLogs = d.auditLogs ∧
      (∃ na, d2.accounts = d.accounts ++ na) ∧
      d.nextId ≤ d2.nextId ∧
      findAccountByName d2 organizationId "Cash" = findAccountByName d organizationId "Cash"
    := by
  cases hf : jsFalsyString category with
  | true =>
    obtain ⟨u, hu⟩ := Option.isSome_iff_exists.mp huncat
    refine ⟨u, d, ?_, ?_, rfl, rfl, rfl, rfl, ⟨[], by simp⟩, le_refl _, rfl⟩
    · simp [getOrCreateExpenseAccount, hf, St.init, hu]
    · rw [expenseAccountNameFor, if_pos hf]; exact hu
  | false =>
    cases hex : findAccountByName d organizationId ("Expense: " ++ category.getD "") with
    | some existing =>
      refine ⟨existing, d, ?_, ?_, rfl, rfl, rfl, rfl, ⟨[], by simp⟩, le_refl _, rfl⟩
      · simp [getOrCreateExpenseAccount, hf, St.init, hex]
      · rw [expenseAccountNameFor, if_neg (by simp [hf])]; exact hex
    | none =>
      refine ⟨categoryAccountRow organizationId (category.getD "") d.nextId,
        (d.insertAccount (categoryAccountRow organizationId (category.getD "") d.nextId)).bumpId
          (d.nextId + 1), ?_, ?_, rfl, rfl, rfl, rfl, ⟨_, rfl⟩, ?_, ?_⟩
      · simp [getOrCreateExpenseAccount, hf, St.init, hex, St.txAccountCreate,
          categoryAccountRow]
      · rw [expenseAccountNameFor, if_neg (by simp [hf])]
        simp only [findAccountByName, DB.insertAccount, DB.bumpId, List.find?_append]
        rw [show d.accounts.find? (fun a => a.organizationId == organizationId &&
            a.name == ("Expense: " ++ category.getD "")) =
          findAccountByName d organizationId ("Expense: " ++ category.getD "") from rfl, hex]
        simp [categoryAccountRow]
      · simp [DB.insertAccount, DB.bumpId]
      · simp only [findAccountByName, DB.insertAccount, DB.bumpId, List.find?_append]
        have hnone : (List.find?
            (fun a => a.organizationId == organizationId && a.name == "Cash")
            [categoryAccountRow organizationId (category.getD "") d.nextId]) = none := by
          simp [List.find?, categoryAccountRow, expense_name_ne_cash]
        rw [hnone]
        simp [findAccountByName]

theorem St.init_current (db : DB) : (St.init db).current = db := rfl

theorem St.init_committed (db : DB) : (St.init db).committed = db := rfl

/-- Normal form of the `execute` closure of `createExpenseTransaction` from
a top-level state, on the non-idempotent path: the bootstrap produces a
committed view `d1` (system accounts and their audit rows only) and, after
category-account resolution, a transaction view `d2`; then the transaction
row, both postings and the audit row are written, the DR/CR verification
passes, and the new transaction id (`d2.nextId`) is returned. -/
theorem createExpenseExecute_nf (input : CreateExpenseTransactionInput) (db : DB)
    (hp : ∀ p ∈ db.postings, p.transactionId < db.nextId)
    (hmiss : findTransactionByIdempotencyKey db input.organizationId input.idempotencyKey
      = none) :
    ∃ (d1 d2 : DB) (ea ca : LedgerAccount),
      d1.transactions = db.transactions ∧ d1.postings = db.postings ∧
      d1.periodLocks = db.periodLocks ∧
      (∃ na, d1.accounts = db.accounts ++ na) ∧
      (∃ nl, d1.auditLogs = db.auditLogs ++ nl) ∧
      d2.transactions = db.transactions ∧ d2.postings = db.postings ∧
      d2.periodLocks = db.periodLocks ∧
      (∃ na, d2.accounts = db.accounts ++ na) ∧
      (∃ nl, d2.auditLogs = db.auditLogs ++ nl) ∧
      db.nextId ≤ d2.nextId ∧
      findAccountByName d2 input.organizationId (expenseAccountNameFor input.category)
        = some ea ∧
      findAccountByName d2 input.organizationId "Cash" = some ca ∧
      (findAccountByName d1 input.organizationId "Cash").isSome = true ∧
      createExpenseExecute input (St.init db) =
        (Except.ok d2.nextId,
         ⟨d1.insertAudit (expenseAuditRow input d2.nextId),
          (((d2.insertTransaction (expenseTxnRow input d2.nextId)).bumpId
              (d2.nextId + 1)).insertPostings
            [expenseDrRow input d2.nextId ea.id,
             expenseCrRow input d2.nextId ca.id]).insertAudit
            (expenseAuditRow input d2.nextId)⟩) := by
  obtain ⟨d1, he, ht1, hpo1, hl1, hacc1, haud1, hn1, hcash1, hunc1⟩ :=
    ensureDefaultAccounts_nf input.organizationId db
  obtain ⟨ea, d2, hg, hea, ht2, hpo2, hl2, hau2, hacc2, hn2, hcashpres⟩ :=
    getOrCreateExpenseAccount_nf input.organizationId input.category d1 hunc1
  have hcash2 : (findAccountByName d2 input.organizationId "Cash").isSome = true := by
    rw [hcashpres]; exact hcash1
  obtain ⟨ca, hca⟩ := Option.isSome_iff_exists.mp hcash2
  refine ⟨d1, d2, ea, ca, ht1, hpo1, hl1, hacc1, haud1, ?_, ?_, ?_, ?_, ?_, ?_, hea, hca,
    hcash1, ?_⟩
  · rw [ht2, ht1]
  · rw [hpo2, hpo1]
  · rw [hl2, hl1]
  · obtain ⟨na1, h1⟩ := hacc1; obtain ⟨na2, h2⟩ := hacc2
    exact ⟨na1 ++ na2, by rw [h2, h1, List.append_assoc]⟩
  · obtain ⟨nl1, h1⟩ := haud1
    exact ⟨nl1, by rw [hau2, h1]⟩
  · exact le_trans hn1 hn2
  · -- evaluate the execute closure
    have hpo2' : d2.postings = db.postings := by rw [hpo2, hpo1]
    have hfilter_old : (db.postings.filter fun p => p.transactionId == d2.nextId) = [] := by
      rw [List.filter_eq_nil_iff]
      intro p hpmem
      have hlt := hp p hpmem
      have hle : db.nextId ≤ d2.nextId := le_trans hn1 hn2
      simp only [beq_iff_eq]
      omega
    rw [createExpenseExecute]
    simp only [St.init_current]
    rw [hmiss]
    simp only []
    rw [he, hg]
    simp only []
    rw [show getCashAccount input.organizationId (⟨d1, d2⟩ : St) =
      Except.ok ca.id from by rw [getCashAccount]; simp only []; rw [hca]]
    simp only [St.txTransactionCreate, St.txPostingsCreateMany, DB.insertTransaction,
      DB.insertPostings, DB.bumpId, createAuditLog, St.globalAudit, DB.insertAudit]
    simp only [hpo2', List.filter_append, hfilter_old, List.nil_append]
    simp only [List.filter, beq_self_eq_true,
      show (PostingDirection.DR == PostingDirection.DR) = true from rfl,
      show (PostingDirection.CR == PostingDirection.DR) = false from rfl,
      show (PostingDirection.CR == PostingDirection.CR) = true from rfl,
      show (PostingDirection.DR == PostingDirection.CR) = false from rfl,
      Bool.and_true, Bool.and_false, List.foldl, zero_add, bne_self_eq_false,
      Bool.false_eq_true, if_false]
    simp [expenseTxnRow, expenseDrRow, expenseCrRow, expenseAuditRow,
      DB.insertTransaction, DB.insertPostings, DB.bumpId, DB.insertAudit]

/-- Normal form of the `execute` closure of `reverseTransaction` from a
top-level state, on the success path: the target exists, belongs to the
tenant, has no reversal link, and no reversal row points back at it.  A
reversal transaction with id `db.nextId` is created, every posting of the
target is mirrored, the target's reversal link is set, and an audit row is
emitted. -/
theorem reverseExecute_nf (input : ReverseTransactionInput) (now : UtcDate) (uuid : String)
    (db : DB) (t : LedgerTransaction)
    (hfind : db.transactions.find? (fun x => x.id == input.transactionId) = some t)
    (horg : t.organizationId = input.organizationId)
    (hrev : t.reversedByTransactionId = none)
    (hnoex : db.transactions.find? (fun x =>
        x.originalTransactionId == some input.transactionId &&
        x.organizationId == input.organizationId) = none) :
    reverseExecute input now uuid (St.init db) =
      (Except.ok db.nextId,
       ⟨db.insertAudit (reversalAuditRow input db.nextId),
        ((((db.insertTransaction (reversalTxnRow input t now uuid db.nextId)).bumpId
            (db.nextId + 1)).insertPostings
          ((db.postings.filter fun p => p.transactionId == input.transactionId).map
            (reversalPostingRow input db.nextId))).setReversedBy input.transactionId
          db.nextId).insertAudit (reversalAuditRow input db.nextId)⟩) := by
  rw [reverseExecute]
  simp only [St.init_current]
  rw [hfind]
  simp only []
  rw [horg]
  simp only [bne_self_eq_false, Bool.false_eq_true, if_false]
  rw [hrev]
  simp only [Option.isSome_none, Bool.false_eq_true, if_false]
  rw [hnoex]
  simp only [St.txTransactionCreate, St.txPostingsCreateMany, St.txSetReversedBy,
    createAuditLog, St.globalAudit, St.init_current, St.init_committed]
  rfl

theorem runTx_of_ok {α : Type} {body : St → Except String α × St} {st st' : St} {a : α}
    (h : body st = (Except.ok a, st')) :
    runTx body st = (Except.ok a, ⟨st'.current, st'.current⟩) := by
  rw [runTx, h]

theorem runTx_of_error {α : Type} {body : St → Except String α × St} {st st' : St} {e : String}
    (h : body st = (Except.error e, st')) :
    runTx body st = (Except.error e, ⟨st'.committed, st'.committed⟩) := by
  rw [runTx, h]

/-- The idempotent path of `createExpenseTransaction`: an existing
transaction for (tenant, idempotencyKey) short-circuits the closure. -/
theorem createExpenseExecute_hit (input : CreateExpenseTransactionInput) (st : St)
    (t : LedgerTransaction)
    (hhit : findTransactionByIdempotencyKey st.current input.organizationId
      input.idempotencyKey = some t) :
    createExpenseExecute input st = (Except.ok t.id, st) := by
  rw [createExpenseExecute, hhit]

/-- `reverseTransaction` when the target does not exist. -/
theorem reverseExecute_notFound (input : ReverseTransactionInput) (now : UtcDate)
    (uuid : String) (st : St)
    (hfind : st.current.transactions.find? (fun x => x.id == input.transactionId) = none) :
    reverseExecute input now uuid st = (Except.error "Transaction not found", st) := by
  rw [reverseExecute, hfind]

/-- `reverseTransaction` when the target belongs to a different tenant. -/
theorem reverseExecute_orgMismatch (input : ReverseTransactionInput) (now : UtcDate)
    (uuid : String) (st : St) (t : LedgerTransaction)
    (hfind : st.current.transactions.find? (fun x => x.id == input.transactionId) = some t)
    (horg : (t.organizationId != input.organizationId) = true) :
    reverseExecute input now uuid st = (Except.error "Organization mismatch", st) := by
  rw [reverseExecute, hfind]
  simp only [horg, if_true]

/-- `reverseTransaction` when the target already has a reversal link: it
throws rather than returning the existing reversal's identifier. -/
theorem reverseExecute_alreadyReversed (input : ReverseTransactionInput) (now : UtcDate)
    (uuid : String) (st : St) (t : LedgerTransaction)
    (hfind : st.current.transactions.find? (fun x => x.id == input.transactionId) = some t)
    (horg : t.organizationId = input.organizationId)
    (hrev : t.reversedByTransactionId.isSome = true) :
    reverseExecute input now uuid st = (Except.error "Transaction already reversed", st) := by
  rw [reverseExecute, hfind]
  simp only [horg, bne_self_eq_false, Bool.false_eq_true, if_false, hrev, if_true]

/-- `reverseTransaction`'s defensive idempotency path: a reversal row
pointing back at the target (with no reversal link on the target) returns
the existing reversal's identifier. -/
theorem reverseExecute_existingReversal (input : ReverseTransactionInput) (now : UtcDate)
    (uuid : String) (st : St) (t r : LedgerTransaction)
    (hfind : st.current.transactions.find? (fun x => x.id == input.transactionId) = some t)
    (horg : t.organizationId = input.organizationId)
    (hrev : t.reversedByTransactionId = none)
    (hex : st.current.transactions.find? (fun x =>
        x.originalTransactionId == some input.transactionId &&
        x.organizationId == input.organizationId) = some r) :
    reverseExecute input now uuid st = (Except.ok r.id, st) := by
  rw [reverseExecute, hfind]
  simp only [horg, bne_self_eq_false, Bool.false_eq_true, if_false, hrev,
    Option.isSome_none, hex]

theorem St.mk_current (c u : DB) : (⟨c, u⟩ : St).current = u := rfl

theorem St.mk_committed (c u : DB) : (⟨c, u⟩ : St).committed = c := rfl

theorem createExpenseTransaction_standalone (input : CreateExpenseTransactionInput) (st : St) :
    createExpenseTransaction input false st = runTx (createExpenseExecute input) st := by
  rw [createExpenseTransaction]
  simp

theorem createExpenseTransaction_nested (input : CreateExpenseTransactionInput) (st : St) :
    createExpenseTransaction input true st = createExpenseExecute input st := by
  rw [createExpenseTransaction]
  simp

theorem reverseTransaction_standalone (input : ReverseTransactionInput) (now : UtcDate)
    (uuid : String) (st : St) :
    reverseTransaction input now uuid false st = runTx (reverseExecute input now uuid) st := by
  rw [reverseTransaction]
  simp

/-! ## Claims -/

/-- Claim C2: for every tenant and idempotency key, calling
`createExpenseTransaction` a second time with the same
(tenant, idempotencyKey) and any other arguments returns the same
transaction identifier as the first call and performs no writes at all —
the whole result (identifier and database state) of the second call is the
result of the first call. -/
theorem claim_C2_create_idempotent (db : DB)
    (input input2 : CreateExpenseTransactionInput)
    (hwf : db.wf)
    (horg : input2.organizationId = input.organizationId)
    (hkey : input2.idempotencyKey = input.idempotencyKey) :
    createExpenseTransaction input2 false (createExpenseTransaction input false (St.init db)).2
      = createExpenseTransaction input false (St.init db) := by
  obtain ⟨-, -, hp, -⟩ := hwf
  cases hhit : findTransactionByIdempotencyKey db input.organizationId input.idempotencyKey
    with
  | some t =>
    have h1 : createExpenseExecute input (St.init db) = (Except.ok t.id, St.init db) :=
      createExpenseExecute_hit input (St.init db) t (by rw [St.init_current]; exact hhit)
    have hrun : createExpenseTransaction input false (St.init db) =
        (Except.ok t.id, St.init db) := by
      rw [createExpenseTransaction_standalone, runTx_of_ok h1]; rfl
    rw [hrun]
    have h2 : createExpenseExecute input2 (St.init db) = (Except.ok t.id, St.init db) :=
      createExpenseExecute_hit input2 (St.init db) t
        (by rw [St.init_current, horg, hkey]; exact hhit)
    rw [createExpenseTransaction_standalone, runTx_of_ok h2]
    rfl
  | none =>
    obtain ⟨d1, d2, ea, ca, ht1, hpo1, hl1, hacc1, haud1, ht2, hpo2, hl2, hacc2, haud2,
      hn2, hea, hca, hcash1, hexec⟩ := createExpenseExecute_nf input db hp hhit
    have hrun : createExpenseTransaction input false (St.init db) =
        (Except.ok d2.nextId,
         ⟨(((d2.insertTransaction (expenseTxnRow input d2.nextId)).bumpId
              (d2.nextId + 1)).insertPostings
            [expenseDrRow input d2.nextId ea.id,
             expenseCrRow input d2.nextId ca.id]).insertAudit
            (expenseAuditRow input d2.nextId),
          (((d2.insertTransaction (expenseTxnRow input d2.nextId)).bumpId
              (d2.nextId + 1)).insertPostings
            [expenseDrRow input d2.nextId ea.id,
             expenseCrRow input d2.nextId ca.id]).insertAudit
            (expenseAuditRow input d2.nextId)⟩) := by
      rw [createExpenseTransaction_standalone, runTx_of_ok hexec]
    rw [hrun]
    have hhit2 : findTransactionByIdempotencyKey
        ((((d2.insertTransaction (expenseTxnRow input d2.nextId)).bumpId
            (d2.nextId + 1)).insertPostings
          [expenseDrRow input d2.nextId ea.id,
           expenseCrRow input d2.nextId ca.id]).insertAudit
          (expenseAuditRow input d2.nextId))
        input2.organizationId input2.idempotencyKey = some (expenseTxnRow input d2.nextId) := by
      rw [findTransactionByIdempotencyKey] at hhit ⊢
      simp only [DB.insertAudit, DB.insertPostings, DB.bumpId, DB.insertTransaction, ht2,
        horg, hkey, List.find?_append, hhit]
      simp [expenseTxnRow, List.find?]
    have h2 : createExpenseExecute input2
        (⟨(((d2.insertTransaction (expenseTxnRow input d2.nextId)).bumpId
            (d2.nextId + 1)).insertPostings
          [expenseDrRow input d2.nextId ea.id,
           expenseCrRow input d2.nextId ca.id]).insertAudit
          (expenseAuditRow input d2.nextId),
         (((d2.insertTransaction (expenseTxnRow input d2.nextId)).bumpId
            (d2.nextId + 1)).insertPostings
          [expenseDrRow input d2.nextId ea.id,
           expenseCrRow input d2.nextId ca.id]).insertAudit
          (expenseAuditRow input d2.nextId)⟩ : St) =
        (Except.ok (expenseTxnRow input d2.nextId).id, _) :=
      createExpenseExecute_hit input2 _ _ (by rw [St.mk_current]; exact hhit2)
    rw [createExpenseTransaction_standalone, runTx_of_ok h2]
    simp [expenseTxnRow]

theorem dr_beq_dr : (PostingDirection.DR == PostingDirection.DR) = true := rfl

theorem cr_beq_cr : (PostingDirection.CR == PostingDirection.CR) = true := rfl

theorem dr_beq_cr : (PostingDirection.DR == PostingDirection.CR) = false := rfl

theorem cr_beq_dr : (PostingDirection.CR == PostingDirection.DR) = false := rfl

/-- Mirrored postings: the DR side of the direction-flipped copies sums to
the CR side of the originals, currency by currency. -/
theorem mirror_dr_sum (input : ReverseTransactionInput) (rid : Nat)
    (l : List LedgerPosting) (cur : String) :
    (((l.map (reversalPostingRow input rid)).filter fun p =>
        p.transactionId == rid && p.direction == PostingDirection.DR &&
        p.currency == cur).map fun p => p.amountCents).sum =
    ((l.filter fun p =>
        p.direction == PostingDirection.CR && p.currency == cur).map
      fun p => p.amountCents).sum := by
  induction l with
  | nil => rfl
  | cons p ps ih =>
    simp only [List.map_cons, List.filter_cons]
    cases hd : p.direction with
    | DR =>
      simp [reversalPostingRow, hd, ih]
    | CR =>
      by_cases hc : p.currency = cur
      · simp [reversalPostingRow, hd, hc, ih]
      · simp [reversalPostingRow, hd, hc, ih, beq_eq_false_iff_ne]

/-- Mirrored postings: the CR side of the direction-flipped copies sums to
the DR side of the originals, currency by currency. -/
theorem mirror_cr_sum (input : ReverseTransactionInput) (rid : Nat)
    (l : List LedgerPosting) (cur : String) :
    (((l.map (reversalPostingRow input rid)).filter fun p =>
        p.transactionId == rid && p.direction == PostingDirection.CR &&
        p.currency == cur).map fun p => p.amountCents).sum =
    ((l.filter fun p =>
        p.direction == PostingDirection.DR && p.currency == cur).map
      fun p => p.amountCents).sum := by
  induction l with
  | nil => rfl
  | cons p ps ih =>
    simp only [List.map_cons, List.filter_cons]
    cases hd : p.direction with
    | CR =>
      simp [reversalPostingRow, hd, ih]
    | DR =>
      by_cases hc : p.currency = cur
      · simp [reversalPostingRow, hd, hc, ih]
      · simp [reversalPostingRow, hd, hc, ih, beq_eq_false_iff_ne]

/-- Postings whose transaction id is below a bound never match a fresh id. -/
theorem filter_low_tid_nil (l : List LedgerPosting) (n tid : Nat)
    (hb : ∀ p ∈ l, p.transactionId < n) (hle : n ≤ tid)
    (q : LedgerPosting → Bool) :
    (l.filter fun p => p.transactionId == tid && q p) = [] := by
  rw [List.filter_eq_nil_iff]
  intro p hmem
  have := hb p hmem
  simp only [Bool.and_eq_true, beq_iff_eq, not_and]
  intro h
  omega

/-- The database written by the non-idempotent path of
`createExpenseTransaction` stays balanced. -/
theorem balanced_after_create (db d2 : DB) (input : CreateExpenseTransactionInput)
    (eaid caid : Nat)
    (htx2 : d2.transactions = db.transactions) (hpo2 : d2.postings = db.postings)
    (htx : ∀ t ∈ db.transactions, t.id < db.nextId)
    (hpo : ∀ p ∈ db.postings, p.transactionId < db.nextId)
    (hn : db.nextId ≤ d2.nextId) (hbal : db.balanced) :
    ((((d2.insertTransaction (expenseTxnRow input d2.nextId)).bumpId
        (d2.nextId + 1)).insertPostings
      [expenseDrRow input d2.nextId eaid, expenseCrRow input d2.nextId caid]).insertAudit
      (expenseAuditRow input d2.nextId)).balanced := by
  intro t ht cur
  simp only [DB.insertAudit, DB.insertPostings, DB.bumpId, DB.insertTransaction] at ht
  rw [htx2] at ht
  rw [drTotalFor, crTotalFor]
  simp only [DB.insertAudit, DB.insertPostings, DB.bumpId, DB.insertTransaction, hpo2]
  rcases List.mem_append.mp ht with hold | hnew
  · have htid : t.id < db.nextId := htx t hold
    have hne : (d2.nextId == t.id) = false := beq_eq_false_iff_ne.mpr (by omega)
    simp only [List.filter_append, List.map_append, List.sum_append]
    have hdr : (([expenseDrRow input d2.nextId eaid,
        expenseCrRow input d2.nextId caid].filter fun p =>
          p.transactionId == t.id && p.direction == PostingDirection.DR &&
          p.currency == cur)) = [] := by
      simp [List.filter, expenseDrRow, expenseCrRow, hne]
    have hcr : (([expenseDrRow input d2.nextId eaid,
        expenseCrRow input d2.nextId caid].filter fun p =>
          p.transactionId == t.id && p.direction == PostingDirection.CR &&
          p.currency == cur)) = [] := by
      simp [List.filter, expenseDrRow, expenseCrRow, hne]
    rw [hdr, hcr]
    simpa using hbal t hold cur
  · have hteq : t = expenseTxnRow input d2.nextId := by simpa using hnew
    subst hteq
    have htid : (expenseTxnRow input d2.nextId).id = d2.nextId := rfl
    rw [htid]
    have hold : (db.postings.filter fun p =>
        p.transactionId == d2.nextId && p.direction == PostingDirection.DR &&
        p.currency == cur) = [] := by
      have := filter_low_tid_nil db.postings db.nextId d2.nextId hpo hn
        (fun p => p.direction == PostingDirection.DR && p.currency == cur)
      simpa [Bool.and_assoc] using this
    have hold2 : (db.postings.filter fun p =>
        p.transactionId == d2.nextId && p.direction == PostingDirection.CR &&
        p.currency == cur) = [] := by
      have := filter_low_tid_nil db.postings db.nextId d2.nextId hpo hn
        (fun p => p.direction == PostingDirection.CR && p.currency == cur)
      simpa [Bool.and_assoc] using this
    simp only [List.filter_append, List.map_append, List.sum_append, hold, hold2]
    by_cases hc : input.currency.getD "USD" = cur
    · simp [List.filter, expenseDrRow, expenseCrRow, hc, dr_beq_dr, cr_beq_cr,
        dr_beq_cr, cr_beq_dr]
    · have hcc : (input.currency.getD "USD" == cur) = false := beq_eq_false_iff_ne.mpr hc
      simp [List.filter, expenseDrRow, expenseCrRow, hcc,
        dr_beq_dr, cr_beq_cr, dr_beq_cr, cr_beq_dr]

/-- The database written by the success path of `reverseTransaction` stays
balanced. -/
theorem balanced_after_reverse (db : DB) (rinput : ReverseTransactionInput)
    (t : LedgerTransaction) (now : UtcDate) (uuid : String)
    (htx : ∀ x ∈ db.transactions, x.id < db.nextId)
    (hpo : ∀ p ∈ db.postings, p.transactionId < db.nextId)
    (hbal : db.balanced)
    (hfind : db.transactions.find? (fun x => x.id == rinput.transactionId) = some t) :
    (((((db.insertTransaction (reversalTxnRow rinput t now uuid db.nextId)).bumpId
        (db.nextId + 1)).insertPostings
      ((db.postings.filter fun p => p.transactionId == rinput.transactionId).map
        (reversalPostingRow rinput db.nextId))).setReversedBy rinput.transactionId
      db.nextId).insertAudit (reversalAuditRow rinput db.nextId)).balanced := by
  have htmem : t ∈ db.transactions := List.mem_of_find?_eq_some hfind
  have htideq : t.id = rinput.transactionId := by
    have := List.find?_some hfind
    simpa [beq_iff_eq] using this
  have htidlt : rinput.transactionId < db.nextId := htideq ▸ htx t htmem
  intro t' ht' cur
  simp only [DB.insertAudit, DB.insertPostings, DB.bumpId, DB.insertTransaction,
    DB.setReversedBy, List.map_append] at ht'
  rw [drTotalFor, crTotalFor]
  simp only [DB.insertAudit, DB.insertPostings, DB.bumpId, DB.insertTransaction,
    DB.setReversedBy]
  have hmirror_tid : ∀ q ∈ ((db.postings.filter fun p =>
      p.transactionId == rinput.transactionId).map (reversalPostingRow rinput db.nextId)),
      q.transactionId = db.nextId := by
    intro q hq
    obtain ⟨p, -, rfl⟩ := List.mem_map.mp hq
    rfl
  rcases List.mem_append.mp ht' with hold | hnew
  · -- an untouched (or link-updated) pre-existing transaction
    obtain ⟨x, hx, rfl⟩ := List.mem_map.mp hold
    have hxid : (if x.id == rinput.transactionId
        then { x with reversedByTransactionId := some db.nextId } else x).id = x.id := by
      by_cases h : (x.id == rinput.transactionId) = true <;> simp [h]
    rw [hxid]
    have hxlt : x.id < db.nextId := htx x hx
    have hmnil : ∀ dir : PostingDirection,
        (((db.postings.filter fun p => p.transactionId == rinput.transactionId).map
          (reversalPostingRow rinput db.nextId)).filter fun p =>
            p.transactionId == x.id && p.direction == dir && p.currency == cur) = [] := by
      intro dir
      rw [List.filter_eq_nil_iff]
      intro q hq
      have := hmirror_tid q hq
      simp only [Bool.and_eq_true, beq_iff_eq, not_and, this]
      intro h
      omega
    simp only [List.filter_append, List.map_append, List.sum_append, hmnil]
    simpa using hbal x hx cur
  · -- the freshly created reversal transaction
    have hteq : t' = if (reversalTxnRow rinput t now uuid db.nextId).id == rinput.transactionId
        then { reversalTxnRow rinput t now uuid db.nextId with
               reversedByTransactionId := some db.nextId }
        else reversalTxnRow rinput t now uuid db.nextId := by simpa using hnew
    have hnid : ((reversalTxnRow rinput t now uuid db.nextId).id ==
        rinput.transactionId) = false := by
      have : (reversalTxnRow rinput t now uuid db.nextId).id = db.nextId := rfl
      rw [this]
      exact beq_eq_false_iff_ne.mpr (by omega)
    rw [hnid] at hteq
    simp only [Bool.false_eq_true, if_false] at hteq
    subst hteq
    have htid' : (reversalTxnRow rinput t now uuid db.nextId).id = db.nextId := rfl
    rw [htid']
    have holddr : (db.postings.filter fun p =>
        p.transactionId == db.nextId && p.direction == PostingDirection.DR &&
        p.currency == cur) = [] := by
      have := filter_low_tid_nil db.postings db.nextId db.nextId hpo (le_refl _)
        (fun p => p.direction == PostingDirection.DR && p.currency == cur)
      simpa [Bool.and_assoc] using this
    have holdcr : (db.postings.filter fun p =>
        p.transactionId == db.nextId && p.direction == PostingDirection.CR &&
        p.currency == cur) = [] := by
      have := filter_low_tid_nil db.postings db.nextId db.nextId hpo (le_refl _)
        (fun p => p.direction == PostingDirection.CR && p.currency == cur)
      simpa [Bool.and_assoc] using this
    simp only [List.filter_append, List.map_append, List.sum_append, holddr, holdcr]
    rw [mirror_dr_sum, mirror_cr_sum]
    have hcomp : ∀ dir : PostingDirection,
        ((db.postings.filter fun p => p.transactionId == rinput.transactionId).filter
          fun p => p.direction == dir && p.currency == cur) =
        (db.postings.filter fun p =>
          p.transactionId == rinput.transactionId && p.direction == dir &&
          p.currency == cur) := by
      intro dir
      rw [List.filter_filter]
      apply List.filter_congr
      intro p _
      cases h1 : p.transactionId == rinput.transactionId <;>
        cases h2 : p.direction == dir <;> cases h3 : p.currency == cur <;> rfl
    rw [hcomp, hcomp]
    have := hbal t htmem cur
    rw [drTotalFor, crTotalFor, htideq] at this
    omega

/-- Claim C1: for every transaction created by `createExpenseTransaction`
or `reverseTransaction`, in every tenant and at every point after the
operation completes, the sum of its DEBIT posting amounts equals the sum
of its CREDIT posting amounts in the same currency — i.e. both operations
preserve the per-currency balance invariant of the whole database. -/
theorem claim_C1_balance_invariant (db : DB) (input : CreateExpenseTransactionInput)
    (rinput : ReverseTransactionInput) (now : UtcDate) (uuid : String)
    (hwf : db.wf) (hbal : db.balanced) :
    (createExpenseTransaction input false (St.init db)).2.current.balanced ∧
    (reverseTransaction rinput now uuid false (St.init db)).2.current.balanced := by
  obtain ⟨hacc, htx, hpo, hnd⟩ := hwf
  constructor
  · cases hhit : findTransactionByIdempotencyKey db input.organizationId
      input.idempotencyKey with
    | some t =>
      have h1 := createExpenseExecute_hit input (St.init db) t
        (by rw [St.init_current]; exact hhit)
      rw [createExpenseTransaction_standalone, runTx_of_ok h1]
      exact hbal
    | none =>
      obtain ⟨d1, d2, ea, ca, ht1, hpo1, hl1, hacc1, haud1, ht2, hpo2, hl2, hacc2, haud2,
        hn2, hea, hca, hcash1, hexec⟩ := createExpenseExecute_nf input db hpo hhit
      rw [createExpenseTransaction_standalone, runTx_of_ok hexec]
      exact balanced_after_create db d2 input ea.id ca.id ht2 hpo2 htx hpo hn2 hbal
  · cases hfind : db.transactions.find? (fun x => x.id == rinput.transactionId) with
    | none =>
      have h1 := reverseExecute_notFound rinput now uuid (St.init db)
        (by rw [St.init_current]; exact hfind)
      rw [reverseTransaction_standalone, runTx_of_error h1]
      exact hbal
    | some t =>
      by_cases horg : t.organizationId = rinput.organizationId
      · cases hrv : t.reversedByTransactionId with
        | some r =>
          have h1 := reverseExecute_alreadyReversed rinput now uuid (St.init db) t
            (by rw [St.init_current]; exact hfind) horg (by rw [hrv]; rfl)
          rw [reverseTransaction_standalone, runTx_of_error h1]
          exact hbal
        | none =>
          cases hex : db.transactions.find? (fun x =>
              x.originalTransactionId == some rinput.transactionId &&
              x.organizationId == rinput.organizationId) with
          | some r =>
            have h1 := reverseExecute_existingReversal rinput now uuid (St.init db) t r
              (by rw [St.init_current]; exact hfind) horg hrv
              (by rw [St.init_current]; exact hex)
            rw [reverseTransaction_standalone, runTx_of_ok h1]
            exact hbal
          | none =>
            have hnf := reverseExecute_nf rinput now uuid db t hfind horg hrv hex
            rw [reverseTransaction_standalone, runTx_of_ok hnf]
            exact balanced_after_reverse db rinput t now uuid htx hpo hbal hfind
      · have horgb : (t.organizationId != rinput.organizationId) = true := by
          simp [bne_iff_ne, horg]
        have h1 := reverseExecute_orgMismatch rinput now uuid (St.init db) t
          (by rw [St.init_current]; exact hfind) horgb
        rw [reverseTransaction_standalone, runTx_of_error h1]
        exact hbal

/-- `find?` only depends on the predicate's values on the list. -/
theorem find?_pred_congr {α : Type} {p q : α → Bool} (l : List α)
    (h : ∀ x ∈ l, p x = q x) : l.find? p = l.find? q := by
  induction l with
  | nil => rfl
  | cons x xs ih =>
    simp only [List.find?_cons]
    rw [h x (List.mem_cons_self x xs)]
    cases q x
    · exact ih fun y hy => h y (List.mem_cons_of_mem x hy)
    · rfl

/-- Claim C6: for every not-yet-reversed transaction `t` with postings,
`reverseTransaction` creates, for every posting of `t`, exactly one
offsetting posting on the same account with the same amount and category
but the opposite direction (DR and CR swapped) and a memo annotated with
the reversal reason, and sets `t`'s reversal link to the new reversal
transaction's identifier. -/
theorem claim_C6_reversal_mirror (db : DB) (rinput : ReverseTransactionInput)
    (now : UtcDate) (uuid : String) (t : LedgerTransaction)
    (hfind : db.transactions.find? (fun x => x.id == rinput.transactionId) = some t)
    (horg : t.organizationId = rinput.organizationId)
    (hrev : t.reversedByTransactionId = none)
    (hnoex : db.transactions.find? (fun x =>
        x.originalTransactionId == some rinput.transactionId &&
        x.organizationId == rinput.organizationId) = none) :
    ∃ rid,
      (reverseTransaction rinput now uuid false (St.init db)).1 = Except.ok rid ∧
      (reverseTransaction rinput now uuid false (St.init db)).2.current.postings =
        db.postings ++
          (db.postings.filter fun p => p.transactionId == rinput.transactionId).map
            (fun p =>
              { organizationId := rinput.organizationId, transactionId := rid,
                accountId := p.accountId,
                direction := if p.direction == PostingDirection.DR then PostingDirection.CR
                  else PostingDirection.DR,
                amountCents := p.amountCents, currency := p.currency,
                memo := some ("Reversal: " ++ p.memo.getD "" ++ " - " ++ rinput.reason),
                category := p.category : LedgerPosting }) ∧
      (reverseTransaction rinput now uuid false (St.init db)).2.current.transactions.find?
          (fun x => x.id == rinput.transactionId) =
        some { t with reversedByTransactionId := some rid } := by
  have hnf := reverseExecute_nf rinput now uuid db t hfind horg hrev hnoex
  refine ⟨db.nextId, ?_, ?_, ?_⟩
  · rw [reverseTransaction_standalone, runTx_of_ok hnf]
  · rw [reverseTransaction_standalone, runTx_of_ok hnf]
    rfl
  · rw [reverseTransaction_standalone, runTx_of_ok hnf]
    show (((((db.insertTransaction (reversalTxnRow rinput t now uuid db.nextId)).bumpId
        (db.nextId + 1)).insertPostings
      ((db.postings.filter fun p => p.transactionId == rinput.transactionId).map
        (reversalPostingRow rinput db.nextId))).setReversedBy rinput.transactionId
      db.nextId).insertAudit (reversalAuditRow rinput db.nextId)).transactions.find?
        (fun x => x.id == rinput.transactionId) =
      some { t with reversedByTransactionId := some db.nextId }
    simp only [DB.insertAudit, DB.setReversedBy, DB.insertPostings, DB.bumpId,
      DB.insertTransaction]
    rw [List.map_append, List.find?_append, List.find?_map]
    have hcong : (db.transactions.find? ((fun x => x.id == rinput.transactionId) ∘
        (fun t => if t.id == rinput.transactionId
          then { t with reversedByTransactionId := some db.nextId } else t))) =
        db.transactions.find? (fun x => x.id == rinput.transactionId) := by
      apply find?_pred_congr
      intro x _
      by_cases h : x.id = rinput.transactionId
      · simp [h]
      · simp [h, beq_eq_false_iff_ne.mpr h]
    rw [hcong, hfind]
    have htid : (t.id == rinput.transactionId) = true :=
      @List.find?_some LedgerTransaction (fun x => x.id == rinput.transactionId) t
        db.transactions hfind
    simp [htid]
    intro h
    exact absurd (by simpa using htid) h

theorem findAccountByName_congr {db1 db2 : DB} (h : db1.accounts = db2.accounts)
    (organizationId name : String) :
    findAccountByName db1 organizationId name = findAccountByName db2 organizationId name := by
  rw [findAccountByName, findAccountByName, h]

/-- Claim C3 counterexample: reversing the spec-scenario transaction
succeeded with reversal identifier 4; calling `reverseTransaction` again on
the already-reversed transaction does not return the same reversal
identifier — it throws "Transaction already reversed" (and changes
nothing). -/
theorem claim_C3_counterexample :
    (reverseTransaction sampleRevInput ⟨2024, 2, 1⟩ "uuid-1" false (St.init sampleDb1)).1 =
      Except.ok 4 ∧
    reverseTransaction sampleRevInput ⟨2024, 3, 1⟩ "uuid-2" false (St.init sampleDb2) =
      (Except.error "Transaction already reversed", St.init sampleDb2) := by
  constructor
  · rfl
  · rfl

/-- Claim C3 (amended): for every transaction that has already been
successfully reversed (its reversal link is set), calling
`reverseTransaction` again fails with the error
"Transaction already reversed" and creates no new transaction or postings
— the state is returned unchanged.  (The same-identifier return exists
only for the defensive case where a reversal row exists while the
target's reversal link is still unset.) -/
theorem claim_C3_amended_second_reverse_fails (db : DB) (rinput : ReverseTransactionInput)
    (now : UtcDate) (uuid : String) (t : LedgerTransaction)
    (hfind : db.transactions.find? (fun x => x.id == rinput.transactionId) = some t)
    (horg : t.organizationId = rinput.organizationId)
    (hrev : t.reversedByTransactionId.isSome = true) :
    reverseTransaction rinput now uuid false (St.init db) =
      (Except.error "Transaction already reversed", St.init db) := by
  have h1 := reverseExecute_alreadyReversed rinput now uuid (St.init db) t
    (by rw [St.init_current]; exact hfind) horg hrev
  rw [reverseTransaction_standalone, runTx_of_error h1]
  rfl

/-- Claim C7: on the non-idempotent path, `createExpenseTransaction`
creates exactly two postings: a DR on the resolved expense account for
`amountCents` and a CR on the Cash account for `amountCents`, both tagged
with the same currency; the DR posting carries the category tag and the
expense description as memo. -/
theorem claim_C7_two_postings (db : DB) (input : CreateExpenseTransactionInput)
    (hwf : db.wf)
    (hmiss : findTransactionByIdempotencyKey db input.organizationId input.idempotencyKey
      = none) :
    ∃ (txId : Nat) (ea ca : LedgerAccount),
      (createExpenseTransaction input false (St.init db)).1 = Except.ok txId ∧
      findAccountByName (createExpenseTransaction input false (St.init db)).2.current
        input.organizationId (expenseAccountNameFor input.category) = some ea ∧
      findAccountByName (createExpenseTransaction input false (St.init db)).2.current
        input.organizationId "Cash" = some ca ∧
      (createExpenseTransaction input false (St.init db)).2.current.postings =
        db.postings ++
          [{ organizationId := input.organizationId, transactionId := txId,
             accountId := ea.id, direction := PostingDirection.DR,
             amountCents := input.amountCents, currency := input.currency.getD "USD",
             category := jsStrOrNull input.category, memo := some input.description },
           { organizationId := input.organizationId, transactionId := txId,
             accountId := ca.id, direction := PostingDirection.CR,
             amountCents := input.amountCents, currency := input.currency.getD "USD",
             category := none, memo := some input.description }] := by
  obtain ⟨-, -, hpo, -⟩ := hwf
  obtain ⟨d1, d2, ea, ca, ht1, hpo1, hl1, hacc1, haud1, ht2, hpo2, hl2, hacc2, haud2,
    hn2, hea, hca, hcash1, hexec⟩ := createExpenseExecute_nf input db hpo hmiss
  refine ⟨d2.nextId, ea, ca, ?_, ?_, ?_, ?_⟩
  · rw [createExpenseTransaction_standalone, runTx_of_ok hexec]
  · rw [createExpenseTransaction_standalone, runTx_of_ok hexec]
    rw [show ((Except.ok d2.nextId : Except String Nat),
      (⟨(((d2.insertTransaction (expenseTxnRow input d2.nextId)).bumpId
          (d2.nextId + 1)).insertPostings
        [expenseDrRow input d2.nextId ea.id, expenseCrRow input d2.nextId ca.id]).insertAudit
        (expenseAuditRow input d2.nextId),
       (((d2.insertTransaction (expenseTxnRow input d2.nextId)).bumpId
          (d2.nextId + 1)).insertPostings
        [expenseDrRow input d2.nextId ea.id, expenseCrRow input d2.nextId ca.id]).insertAudit
        (expenseAuditRow input d2.nextId)⟩ : St)).2.current =
      (((d2.insertTransaction (expenseTxnRow input d2.nextId)).bumpId
          (d2.nextId + 1)).insertPostings
        [expenseDrRow input d2.nextId ea.id, expenseCrRow input d2.nextId ca.id]).insertAudit
        (expenseAuditRow input d2.nextId) from rfl]
    rw [findAccountByName_congr (by simp [DB.insertAudit, DB.insertPostings, DB.bumpId,
      DB.insertTransaction] : (((((d2.insertTransaction (expenseTxnRow input d2.nextId)).bumpId
          (d2.nextId + 1)).insertPostings
        [expenseDrRow input d2.nextId ea.id, expenseCrRow input d2.nextId ca.id]).insertAudit
        (expenseAuditRow input d2.nextId)) : DB).accounts = d2.accounts)]
    exact hea
  · rw [createExpenseTransaction_standalone, runTx_of_ok hexec]
    rw [findAccountByName_congr (by simp [DB.insertAudit, DB.insertPostings, DB.bumpId,
      DB.insertTransaction] : (((((d2.insertTransaction (expenseTxnRow input d2.nextId)).bumpId
          (d2.nextId + 1)).insertPostings
        [expenseDrRow input d2.nextId ea.id, expenseCrRow input d2.nextId ca.id]).insertAudit
        (expenseAuditRow input d2.nextId)) : DB).accounts = d2.accounts)]
    exact hca
  · rw [createExpenseTransaction_standalone, runTx_of_ok hexec]
    show (((((d2.insertTransaction (expenseTxnRow input d2.nextId)).bumpId
        (d2.nextId + 1)).insertPostings
      [expenseDrRow input d2.nextId ea.id, expenseCrRow input d2.nextId ca.id]).insertAudit
      (expenseAuditRow input d2.nextId)) : DB).postings = _
    simp only [DB.insertAudit, DB.insertPostings, DB.bumpId, DB.insertTransaction, hpo2]
    rfl

/-- Claim C10: `createExpenseTransaction` imposes no positivity
precondition on the amount: for every integer `amountCents`, including
zero and negative values, the operation succeeds and records two postings
both carrying that amount (DR against CR); the positive-amount rule lives
only in the API-edge `expenseSchema`, which rejects any non-positive
amount. -/
theorem claim_C10_no_positivity_precondition (db : DB)
    (input : CreateExpenseTransactionInput) (hwf : db.wf)
    (hmiss : findTransactionByIdempotencyKey db input.organizationId input.idempotencyKey
      = none) :
    (∃ (txId : Nat) (p1 p2 : LedgerPosting),
      (createExpenseTransaction input false (St.init db)).1 = Except.ok txId ∧
      (createExpenseTransaction input false (St.init db)).2.current.postings =
        db.postings ++ [p1, p2] ∧
      p1.amountCents = input.amountCents ∧ p2.amountCents = input.amountCents ∧
      p1.direction = PostingDirection.DR ∧ p2.direction = PostingDirection.CR) ∧
    (input.amountCents ≤ 0 → expenseSchemaAmountOk (input.amountCents : Rat) = false) := by
  obtain ⟨-, -, hpo, -⟩ := hwf
  obtain ⟨d1, d2, ea, ca, ht1, hpo1, hl1, hacc1, haud1, ht2, hpo2, hl2, hacc2, haud2,
    hn2, hea, hca, hcash1, hexec⟩ := createExpenseExecute_nf input db hpo hmiss
  constructor
  · refine ⟨d2.nextId, expenseDrRow input d2.nextId ea.id,
      expenseCrRow input d2.nextId ca.id, ?_, ?_, rfl, rfl, rfl, rfl⟩
    · rw [createExpenseTransaction_standalone, runTx_of_ok hexec]
    · rw [createExpenseTransaction_standalone, runTx_of_ok hexec]
      show (((((d2.insertTransaction (expenseTxnRow input d2.nextId)).bumpId
          (d2.nextId + 1)).insertPostings
        [expenseDrRow input d2.nextId ea.id, expenseCrRow input d2.nextId ca.id]).insertAudit
        (expenseAuditRow input d2.nextId)) : DB).postings = _
      simp only [DB.insertAudit, DB.insertPostings, DB.bumpId, DB.insertTransaction, hpo2]
  · intro hle
    rw [expenseSchemaAmountOk]
    simp only [decide_eq_false_iff_not, not_lt]
    exact_mod_cast hle

/-- Claim C8: for every tenant and every date, `guardPeriodNotLocked`
fails with the period-locked error if and only if a lock row exists for
the tenant and the year-month period derived from the date, and otherwise
returns normally (its return type carries no state: it performs no
writes). -/
theorem claim_C8_guard_iff_lock (st : St) (organizationId : String) (occurredAt : UtcDate) :
    ((∃ l ∈ st.committed.periodLocks,
        l.organizationId = organizationId ∧ l.period = isoPeriod occurredAt) ↔
      guardPeriodNotLocked organizationId occurredAt st =
        Except.error ("Period " ++ isoPeriod occurredAt ++
          " is locked and cannot be modified")) ∧
    (¬ (∃ l ∈ st.committed.periodLocks,
        l.organizationId = organizationId ∧ l.period = isoPeriod occurredAt) ↔
      guardPeriodNotLocked organizationId occurredAt st = Except.ok ()) := by
  cases hfind : findPeriodLock st.committed organizationId (isoPeriod occurredAt) with
  | some l =>
    have hg : guardPeriodNotLocked organizationId occurredAt st =
        Except.error ("Period " ++ isoPeriod occurredAt ++
          " is locked and cannot be modified") := by
      rw [guardPeriodNotLocked]
      rw [hfind]
    have hfind' := hfind
    rw [findPeriodLock] at hfind'
    have hmem : l ∈ st.committed.periodLocks := List.mem_of_find?_eq_some hfind'
    obtain ⟨ho, hp⟩ : l.organizationId = organizationId ∧ l.period = isoPeriod occurredAt := by
      have := @List.find?_some LedgerPeriodLock
        (fun x => x.organizationId == organizationId && x.period == isoPeriod occurredAt) l
        st.committed.periodLocks hfind'
      simpa [Bool.and_eq_true, beq_iff_eq] using this
    constructor
    · exact ⟨fun _ => hg, fun _ => ⟨l, hmem, ho, hp⟩⟩
    · constructor
      · intro hno; exact absurd ⟨l, hmem, ho, hp⟩ hno
      · intro hok; rw [hg] at hok; cases hok
  | none =>
    have hg : guardPeriodNotLocked organizationId occurredAt st = Except.ok () := by
      rw [guardPeriodNotLocked]
      rw [hfind]
    have hno : ¬ (∃ l ∈ st.committed.periodLocks,
        l.organizationId = organizationId ∧ l.period = isoPeriod occurredAt) := by
      rw [findPeriodLock, List.find?_eq_none] at hfind
      rintro ⟨l, hmem, ho, hp⟩
      have := hfind l hmem
      simp [ho, hp] at this
    constructor
    · constructor
      · intro hex; exact absurd hex hno
      · intro herr; rw [hg] at herr; cases herr
    · exact ⟨fun _ => hg, fun _ => hno⟩

/-- Dropping the pairs whose posting list is empty does not change the sum
of per-pair posting sums. -/
theorem sum_filter_snd_nonempty {α β : Type} (l : List (α × List β)) (f : β → Int) :
    ((l.filter fun tp => tp.2.length > 0).map fun tp => (tp.2.map f).sum).sum =
    (l.map fun tp => (tp.2.map f).sum).sum := by
  induction l with
  | nil => rfl
  | cons tp l ih =>
    by_cases h : tp.2.length > 0
    · simp [List.filter_cons, h, ih]
    · have hnil : tp.2 = [] := List.length_eq_zero.mp (by omega)
      simp [List.filter_cons, h, hnil, ih]

/-- Claim C4: for every tenant, the report total with no filters equals
the sum of the DEBIT posting amounts of all of the tenant's transactions
whose reversal link is null, divided by 100 to convert minor units to
major units — so transactions that have been reversed never contribute. -/
theorem claim_C4_report_total (db : DB) (organizationId : String) :
    (getLedgerReportTotal db organizationId none none none none).total =
      (specNoFilterReportMinorUnits db organizationId : Rat) / 100 := by
  rw [getLedgerReportTotal]
  simp only [Bool.and_true]
  rw [foldl_add_eq_sum (fun tp : LedgerTransaction × List LedgerPosting =>
    tp.2.foldl (fun s p => s + p.amountCents) 0)]
  rw [zero_add]
  have hinner : ∀ (l : List (LedgerTransaction × List LedgerPosting)),
      (l.map fun tp => tp.2.foldl (fun s p => s + p.amountCents) 0) =
      (l.map fun tp => (tp.2.map fun p => p.amountCents).sum) := by
    intro l
    apply List.map_congr_left
    intro tp _
    rw [foldl_add_eq_sum (fun p : LedgerPosting => p.amountCents), zero_add]
  rw [hinner, sum_filter_snd_nonempty, List.map_map]
  rw [specNoFilterReportMinorUnits]
  have hcomp : ((fun tp : LedgerTransaction × List LedgerPosting =>
      (tp.2.map fun p => p.amountCents).sum) ∘ fun t =>
        (t, db.postings.filter fun p =>
          p.transactionId == t.id && p.direction == PostingDirection.DR)) =
      fun t => ((db.postings.filter fun p =>
        p.transactionId == t.id && p.direction == PostingDirection.DR).map
          fun p => p.amountCents).sum := rfl
  rw [hcomp]

/-- Claim C5 counterexample: run `createExpenseTransaction` nested inside a
caller-supplied unit of work that then aborts, starting from an empty
store.  The transaction row is rolled back, yet the two bootstrap accounts
and three audit rows written through the global client persist — partial
state from an aborted run is observable, so the operation's writes are not
all-or-nothing. -/
theorem claim_C5_counterexample :
    (callerAbortAfterCreate sampleInput (St.init emptyDB)).1 =
      Except.error "caller abort" ∧
    (callerAbortAfterCreate sampleInput (St.init emptyDB)).2.current.transactions = [] ∧
    (callerAbortAfterCreate sampleInput (St.init emptyDB)).2.current.postings = [] ∧
    (callerAbortAfterCreate sampleInput (St.init emptyDB)).2.current.accounts.length = 2 ∧
    (callerAbortAfterCreate sampleInput (St.init emptyDB)).2.current.auditLogs.length = 3 :=
  ⟨rfl, rfl, rfl, rfl, rfl⟩

/-- Claim C5 (amended): when `createExpenseTransaction` runs standalone on
the non-idempotent path it always succeeds — ImbalanceError is unreachable
(the two created postings always balance) — and the transaction row and
both postings land together, atomically visible (committed = current).
When it runs nested inside a caller-supplied unit of work that aborts, the
transaction row and postings are rolled back together, but the bootstrap
accounts and the audit rows persist, because `ensureDefaultAccounts` and
`createAuditLog` write through the global client in their own
transactions. -/
theorem claim_C5_amended_atomicity (db : DB) (input : CreateExpenseTransactionInput)
    (hwf : db.wf)
    (hmiss : findTransactionByIdempotencyKey db input.organizationId input.idempotencyKey
      = none) :
    (∃ (txId : Nat) (eaid caid : Nat),
      (createExpenseTransaction input false (St.init db)).1 = Except.ok txId ∧
      (createExpenseTransaction input false (St.init db)).2.current.transactions =
        db.transactions ++ [expenseTxnRow input txId] ∧
      (createExpenseTransaction input false (St.init db)).2.current.postings =
        db.postings ++ [expenseDrRow input txId eaid, expenseCrRow input txId caid] ∧
      (createExpenseTransaction input false (St.init db)).2.committed =
        (createExpenseTransaction input false (St.init db)).2.current) ∧
    ((callerAbortAfterCreate input (St.init db)).1 = Except.error "caller abort" ∧
      (callerAbortAfterCreate input (St.init db)).2.current.transactions =
        db.transactions ∧
      (callerAbortAfterCreate input (St.init db)).2.current.postings = db.postings ∧
      (findAccountByName (callerAbortAfterCreate input (St.init db)).2.current
        input.organizationId "Cash").isSome = true ∧
      db.auditLogs.length <
        (callerAbortAfterCreate input (St.init db)).2.current.auditLogs.length) := by
  obtain ⟨-, -, hpo, -⟩ := hwf
  obtain ⟨d1, d2, ea, ca, ht1, hpo1, hl1, hacc1, haud1, ht2, hpo2, hl2, hacc2, haud2,
    hn2, hea, hca, hcash1, hexec⟩ := createExpenseExecute_nf input db hpo hmiss
  constructor
  · refine ⟨d2.nextId, ea.id, ca.id, ?_, ?_, ?_, ?_⟩
    · rw [createExpenseTransaction_standalone, runTx_of_ok hexec]
    · rw [createExpenseTransaction_standalone, runTx_of_ok hexec]
      show (((((d2.insertTransaction (expenseTxnRow input d2.nextId)).bumpId
          (d2.nextId + 1)).insertPostings
        [expenseDrRow input d2.nextId ea.id, expenseCrRow input d2.nextId ca.id]).insertAudit
        (expenseAuditRow input d2.nextId)) : DB).transactions = _
      simp only [DB.insertAudit, DB.insertPostings, DB.bumpId, DB.insertTransaction, ht2]
    · rw [createExpenseTransaction_standalone, runTx_of_ok hexec]
      show (((((d2.insertTransaction (expenseTxnRow input d2.nextId)).bumpId
          (d2.nextId + 1)).insertPostings
        [expenseDrRow input d2.nextId ea.id, expenseCrRow input d2.nextId ca.id]).insertAudit
        (expenseAuditRow input d2.nextId)) : DB).postings = _
      simp only [DB.insertAudit, DB.insertPostings, DB.bumpId, DB.insertTransaction, hpo2]
    · rw [createExpenseTransaction_standalone, runTx_of_ok hexec]
  · have hbody : ((fun st0 => match createExpenseTransaction input true st0 with
        | (Except.ok _, st1) => (Except.error "caller abort", st1)
        | (Except.error e, st1) => (Except.error e, st1) :
          St → Except String Nat × St)) (St.init db) =
        (Except.error "caller abort",
         (⟨d1.insertAudit (expenseAuditRow input d2.nextId),
           (((d2.insertTransaction (expenseTxnRow input d2.nextId)).bumpId
              (d2.nextId + 1)).insertPostings
            [expenseDrRow input d2.nextId ea.id,
             expenseCrRow input d2.nextId ca.id]).insertAudit
            (expenseAuditRow input d2.nextId)⟩ : St)) := by
      simp only []
      rw [createExpenseTransaction_nested, hexec]
    have hrun : callerAbortAfterCreate input (St.init db) =
        (Except.error "caller abort",
         ⟨d1.insertAudit (expenseAuditRow input d2.nextId),
          d1.insertAudit (expenseAuditRow input d2.nextId)⟩) := by
      rw [callerAbortAfterCreate, runTx_of_error hbody]
    rw [hrun]
    refine ⟨rfl, ?_, ?_, ?_, ?_⟩
    · show (d1.insertAudit (expenseAuditRow input d2.nextId)).transactions = _
      simp only [DB.insertAudit, ht1]
    · show (d1.insertAudit (expenseAuditRow input d2.nextId)).postings = _
      simp only [DB.insertAudit, hpo1]
    · rw [findAccountByName_congr
        (by simp [DB.insertAudit] :
          (d1.insertAudit (expenseAuditRow input d2.nextId)).accounts = d1.accounts)]
      exact hcash1
    · show db.auditLogs.length <
        (d1.insertAudit (expenseAuditRow input d2.nextId)).auditLogs.length
      obtain ⟨nl, hnl⟩ := haud1
      simp [DB.insertAudit, hnl]

/-! ### Period-lock insensitivity (claim C9): the ledger operations
commute with replacing the period-lock table. -/

theorem withLocks_committed (st : St) (L : List LedgerPeriodLock) :
    (st.withLocks L).committed = st.committed.withLocks L := rfl

theorem withLocks_current (st : St) (L : List LedgerPeriodLock) :
    (st.withLocks L).current = st.current.withLocks L := rfl

theorem findAccountByName_withLocks (db : DB) (L : List LedgerPeriodLock) (o n : String) :
    findAccountByName (db.withLocks L) o n = findAccountByName db o n := rfl

theorem findTransactionByIdempotencyKey_withLocks (db : DB) (L : List LedgerPeriodLock)
    (o k : String) :
    findTransactionByIdempotencyKey (db.withLocks L) o k =
      findTransactionByIdempotencyKey db o k := rfl

theorem init_withLocks (db : DB) (L : List LedgerPeriodLock) :
    St.init (db.withLocks L) = (St.init db).withLocks L := rfl

theorem ensureSystemAccount_withLocks (o n : String) (ty : AccountType) (code : String)
    (st : St) (L : List LedgerPeriodLock) :
    ensureSystemAccount o n ty code (st.withLocks L) =
      (ensureSystemAccount o n ty code st).withLocks L := by
  rw [ensureSystemAccount, ensureSystemAccount]
  simp only [withLocks_committed, findAccountByName_withLocks]
  cases h : findAccountByName st.committed o n with
  | some a => rfl
  | none => rfl

theorem ensureDefaultAccounts_withLocks (o : String) (st : St) (L : List LedgerPeriodLock) :
    ensureDefaultAccounts o (st.withLocks L) = (ensureDefaultAccounts o st).withLocks L := by
  rw [ensureDefaultAccounts, ensureDefaultAccounts, ensureSystemAccount_withLocks,
    ensureSystemAccount_withLocks]

theorem getOrCreateExpenseAccount_withLocks (o : String) (cat : Option String) (st : St)
    (L : List LedgerPeriodLock) :
    getOrCreateExpenseAccount o cat (st.withLocks L) =
      ((getOrCreateExpenseAccount o cat st).1,
       (getOrCreateExpenseAccount o cat st).2.withLocks L) := by
  rw [getOrCreateExpenseAccount, getOrCreateExpenseAccount]
  cases hf : jsFalsyString cat with
  | true =>
    simp only [hf, if_true]
    simp only [withLocks_current, findAccountByName_withLocks]
    cases h : findAccountByName st.current o "Uncategorized Expense" with
    | some u => rfl
    | none => rfl
  | false =>
    simp only [hf, Bool.false_eq_true, if_false]
    simp only [withLocks_current, findAccountByName_withLocks]
    cases h : findAccountByName st.current o ("Expense: " ++ cat.getD "") with
    | some e => rfl
    | none => rfl

theorem createExpenseExecute_withLocks (input : CreateExpenseTransactionInput) (st : St)
    (L : List LedgerPeriodLock) :
    createExpenseExecute input (st.withLocks L) =
      ((createExpenseExecute input st).1,
       (createExpenseExecute input st).2.withLocks L) := by
  rw [createExpenseExecute, createExpenseExecute]
  simp only [withLocks_current, findTransactionByIdempotencyKey_withLocks]
  cases hm : findTransactionByIdempotencyKey st.current input.organizationId
    input.idempotencyKey with
  | some t => rfl
  | none =>
    simp only []
    rw [ensureDefaultAccounts_withLocks, getOrCreateExpenseAccount_withLocks]
    cases hg : getOrCreateExpenseAccount input.organizationId input.category
      (ensureDefaultAccounts input.organizationId st) with
    | mk r st' =>
      cases r with
      | error e => rfl
      | ok eid =>
        simp only []
        rw [show getCashAccount input.organizationId (st'.withLocks L) =
          getCashAccount input.organizationId st' from rfl]
        cases hc : getCashAccount input.organizationId st' with
        | error e => rfl
        | ok cid =>
          simp only [St.txTransactionCreate, St.txPostingsCreateMany, createAuditLog,
            St.globalAudit, DB.insertTransaction, DB.insertPostings, DB.insertAudit,
            DB.bumpId, withLocks_current, withLocks_committed, DB.withLocks]
          cases hb : ((List.filter (fun p => p.direction == PostingDirection.DR)
              (List.filter (fun p => p.transactionId == st'.current.nextId)
                (st'.current.postings ++
                  [{ organizationId := input.organizationId,
                     transactionId := st'.current.nextId, accountId := eid,
                     direction := PostingDirection.DR, amountCents := input.amountCents,
                     currency := input.currency.getD "USD",
                     category := jsStrOrNull input.category,
                     memo := some input.description },
                   { organizationId := input.organizationId,
                     transactionId := st'.current.nextId, accountId := cid,
                     direction := PostingDirection.CR, amountCents := input.amountCents,
                     currency := input.currency.getD "USD", category := none,
                     memo := some input.description }]))).foldl
                (fun sum p => sum + p.amountCents) 0 !=
              (List.filter (fun p => p.direction == PostingDirection.CR)
                (List.filter (fun p => p.transactionId == st'.current.nextId)
                  (st'.current.postings ++
                    [{ organizationId := input.organizationId,
                       transactionId := st'.current.nextId, accountId := eid,
                       direction := PostingDirection.DR, amountCents := input.amountCents,
                       currency := input.currency.getD "USD",
                       category := jsStrOrNull input.category,
                       memo := some input.description },
                     { organizationId := input.organizationId,
                       transactionId := st'.current.nextId, accountId := cid,
                       direction := PostingDirection.CR, amountCents := input.amountCents,
                       currency := input.currency.getD "USD", category := none,
                       memo := some input.description }]))).foldl
                (fun sum p => sum + p.amountCents) 0) with
          | true => rfl
          | false => rfl

theorem reverseExecute_withLocks (input : ReverseTransactionInput) (now : UtcDate)
    (uuid : String) (st : St) (L : List LedgerPeriodLock) :
    reverseExecute input now uuid (st.withLocks L) =
      ((reverseExecute input now uuid st).1,
       (reverseExecute input now uuid st).2.withLocks L) := by
  rw [reverseExecute, reverseExecute]
  simp only [withLocks_current,
    show ∀ (db : DB) (L : List LedgerPeriodLock), (db.withLocks L).transactions =
      db.transactions from fun _ _ => rfl,
    show ∀ (db : DB) (L : List LedgerPeriodLock), (db.withLocks L).postings =
      db.postings from fun _ _ => rfl]
  cases hf : st.current.transactions.find? (fun t => t.id == input.transactionId) with
  | none => rfl
  | some originalTx =>
    simp only []
    cases ho : (originalTx.organizationId != input.organizationId) with
    | true => rfl
    | false =>
      simp only [Bool.false_eq_true, if_false]
      cases hr : originalTx.reversedByTransactionId.isSome with
      | true => rfl
      | false =>
        simp only [Bool.false_eq_true, if_false]
        cases he : st.current.transactions.find? (fun t =>
            t.originalTransactionId == some input.transactionId &&
            t.organizationId == input.organizationId) with
        | some existingReversal => rfl
        | none => rfl

theorem createExpenseTransaction_withLocks (input : CreateExpenseTransactionInput)
    (b : Bool) (st : St) (L : List LedgerPeriodLock) :
    createExpenseTransaction input b (st.withLocks L) =
      ((createExpenseTransaction input b st).1,
       (createExpenseTransaction input b st).2.withLocks L) := by
  cases b with
  | true =>
    rw [createExpenseTransaction_nested, createExpenseTransaction_nested,
      createExpenseExecute_withLocks]
  | false =>
    rw [createExpenseTransaction_standalone, createExpenseTransaction_standalone,
      runTx, runTx, createExpenseExecute_withLocks]
    cases hx : createExpenseExecute input st with
    | mk r st' =>
      cases r with
      | ok a => rfl
      | error e => rfl

theorem reverseTransaction_withLocks (input : ReverseTransactionInput) (now : UtcDate)
    (uuid : String) (b : Bool) (st : St) (L : List LedgerPeriodLock) :
    reverseTransaction input now uuid b (st.withLocks L) =
      ((reverseTransaction input now uuid b st).1,
       (reverseTransaction input now uuid b st).2.withLocks L) := by
  cases b with
  | true =>
    have hnest : ∀ s, reverseTransaction input now uuid true s =
        reverseExecute input now uuid s := fun s => by rw [reverseTransaction]; simp
    rw [hnest, hnest, reverseExecute_withLocks]
  | false =>
    rw [reverseTransaction_standalone, reverseTransaction_standalone,
      runTx, runTx, reverseExecute_withLocks]
    cases hx : reverseExecute input now uuid st with
    | mk r st' =>
      cases r with
      | ok a => rfl
      | error e => rfl

/-- Claim C9: the contents of the period-lock table have no effect on
`createExpenseTransaction` or `reverseTransaction` — for any two states
differing only in period locks, both operations return the same result and
produce the same state apart from the (unread, unmodified) lock table; so
the core itself will record or reverse a transaction dated in a locked
period, and period locking is enforced only when the caller invokes
`guardPeriodNotLocked` beforehand. -/
theorem claim_C9_period_locks_ignored (db : DB) (L1 L2 : List LedgerPeriodLock)
    (input : CreateExpenseTransactionInput) (rinput : ReverseTransactionInput)
    (now : UtcDate) (uuid : String) (b : Bool) :
    ((createExpenseTransaction input b (St.init (db.withLocks L1))).1 =
      (createExpenseTransaction input b (St.init (db.withLocks L2))).1) ∧
    ((reverseTransaction rinput now uuid b (St.init (db.withLocks L1))).1 =
      (reverseTransaction rinput now uuid b (St.init (db.withLocks L2))).1) ∧
    ((createExpenseTransaction input b (St.init (db.withLocks L1))).2 =
      (createExpenseTransaction input b (St.init db)).2.withLocks L1) ∧
    ((createExpenseTransaction input b (St.init (db.withLocks L2))).2 =
      (createExpenseTransaction input b (St.init db)).2.withLocks L2) ∧
    ((reverseTransaction rinput now uuid b (St.init (db.withLocks L1))).2 =
      (reverseTransaction rinput now uuid b (St.init db)).2.withLocks L1) ∧
    ((reverseTransaction rinput now uuid b (St.init (db.withLocks L2))).2 =
      (reverseTransaction rinput now uuid b (St.init db)).2.withLocks L2) := by
  refine ⟨?_, ?_, ?_, ?_, ?_, ?_⟩
  · rw [init_withLocks, init_withLocks, createExpenseTransaction_withLocks,
      createExpenseTransaction_withLocks]
  · rw [init_withLocks, init_withLocks, reverseTransaction_withLocks,
      reverseTransaction_withLocks]
  · rw [init_withLocks, createExpenseTransaction_withLocks]
  · rw [init_withLocks, createExpenseTransaction_withLocks]
  · rw [init_withLocks, reverseTransaction_withLocks]
  · rw [init_withLocks, reverseTransaction_withLocks]

/-! ### Witnesses: the claim theorems applied at concrete inputs -/

theorem claim_C1_witness :
    (createExpenseTransaction sampleInput false (St.init emptyDB)).2.current.balanced ∧
    (reverseTransaction sampleRevInput ⟨2024, 2, 1⟩ "uuid-1" false
      (St.init emptyDB)).2.current.balanced :=
  claim_C1_balance_invariant emptyDB sampleInput sampleRevInput ⟨2024, 2, 1⟩ "uuid-1"
    (by decide) (fun t ht => absurd ht (List.not_mem_nil t))

theorem claim_C2_witness :
    createExpenseTransaction sampleRetryInput false
        (createExpenseTransaction sampleInput false (St.init emptyDB)).2 =
      createExpenseTransaction sampleInput false (St.init emptyDB) :=
  claim_C2_create_idempotent emptyDB sampleInput sampleRetryInput (by decide) rfl rfl

theorem claim_C3_amended_witness :
    reverseTransaction sampleRevInput ⟨2024, 4, 1⟩ "uuid-3" false (St.init sampleDb2) =
      (Except.error "Transaction already reversed", St.init sampleDb2) :=
  claim_C3_amended_second_reverse_fails sampleDb2 sampleRevInput ⟨2024, 4, 1⟩ "uuid-3"
    ⟨3, "org1", ⟨2024, 1, 15⟩, "Lunch", none, "expense:abc", "u1", none, some 4⟩
    (by decide) (by decide) (by decide)

theorem claim_C5_amended_witness :
    (∃ (txId : Nat) (eaid caid : Nat),
      (createExpenseTransaction sampleInput false (St.init emptyDB)).1 = Except.ok txId ∧
      (createExpenseTransaction sampleInput false (St.init emptyDB)).2.current.transactions =
        emptyDB.transactions ++ [expenseTxnRow sampleInput txId] ∧
      (createExpenseTransaction sampleInput false (St.init emptyDB)).2.current.postings =
        emptyDB.postings ++
          [expenseDrRow sampleInput txId eaid, expenseCrRow sampleInput txId caid] ∧
      (createExpenseTransaction sampleInput false (St.init emptyDB)).2.committed =
        (createExpenseTransaction sampleInput false (St.init emptyDB)).2.current) ∧
    ((callerAbortAfterCreate sampleInput (St.init emptyDB)).1 =
        Except.error "caller abort" ∧
      (callerAbortAfterCreate sampleInput (St.init emptyDB)).2.current.transactions =
        emptyDB.transactions ∧
      (callerAbortAfterCreate sampleInput (St.init emptyDB)).2.current.postings =
        emptyDB.postings ∧
      (findAccountByName (callerAbortAfterCreate sampleInput (St.init emptyDB)).2.current
        sampleInput.organizationId "Cash").isSome = true ∧
      emptyDB.auditLogs.length <
        (callerAbortAfterCreate sampleInput (St.init emptyDB)).2.current.auditLogs.length) :=
  claim_C5_amended_atomicity emptyDB sampleInput (by decide) (by decide)

theorem claim_C6_witness :
    ∃ rid,
      (reverseTransaction sampleRevInput ⟨2024, 2, 1⟩ "uuid-1" false
        (St.init sampleDb1)).1 = Except.ok rid ∧
      (reverseTransaction sampleRevInput ⟨2024, 2, 1⟩ "uuid-1" false
          (St.init sampleDb1)).2.current.postings =
        sampleDb1.postings ++
          (sampleDb1.postings.filter fun p =>
            p.transactionId == sampleRevInput.transactionId).map
            (fun p =>
              { organizationId := sampleRevInput.organizationId, transactionId := rid,
                accountId := p.accountId,
                direction := if p.direction == PostingDirection.DR then PostingDirection.CR
                  else PostingDirection.DR,
                amountCents := p.amountCents, currency := p.currency,
                memo := some ("Reversal: " ++ p.memo.getD "" ++ " - " ++
                  sampleRevInput.reason),
                category := p.category : LedgerPosting }) ∧
      (reverseTransaction sampleRevInput ⟨2024, 2, 1⟩ "uuid-1" false
          (St.init sampleDb1)).2.current.transactions.find?
          (fun x => x.id == sampleRevInput.transactionId) =
        some { (⟨3, "org1", ⟨2024, 1, 15⟩, "Lunch", none, "expense:abc", "u1", none,
          none⟩ : LedgerTransaction) with reversedByTransactionId := some rid } :=
  claim_C6_reversal_mirror sampleDb1 sampleRevInput ⟨2024, 2, 1⟩ "uuid-1"
    ⟨3, "org1", ⟨2024, 1, 15⟩, "Lunch", none, "expense:abc", "u1", none, none⟩
    (by decide) (by decide) (by decide) (by decide)

theorem claim_C7_witness :
    ∃ (txId : Nat) (ea ca : LedgerAccount),
      (createExpenseTransaction sampleInput false (St.init emptyDB)).1 = Except.ok txId ∧
      findAccountByName (createExpenseTransaction sampleInput false
          (St.init emptyDB)).2.current
        sampleInput.organizationId (expenseAccountNameFor sampleInput.category) = some ea ∧
      findAccountByName (createExpenseTransaction sampleInput false
          (St.init emptyDB)).2.current
        sampleInput.organizationId "Cash" = some ca ∧
      (createExpenseTransaction sampleInput false (St.init emptyDB)).2.current.postings =
        emptyDB.postings ++
          [{ organizationId := sampleInput.organizationId, transactionId := txId,
             accountId := ea.id, direction := PostingDirection.DR,
             amountCents := sampleInput.amountCents,
             currency := sampleInput.currency.getD "USD",
             category := jsStrOrNull sampleInput.category,
             memo := some sampleInput.description },
           { organizationId := sampleInput.organizationId, transactionId := txId,
             accountId := ca.id, direction := PostingDirection.CR,
             amountCents := sampleInput.amountCents,
             currency := sampleInput.currency.getD "USD",
             category := none, memo := some sampleInput.description }] :=
  claim_C7_two_postings emptyDB sampleInput (by decide) (by decide)

theorem claim_C10_witness :
    (∃ (txId : Nat) (p1 p2 : LedgerPosting),
      (createExpenseTransaction sampleNegativeInput false (St.init emptyDB)).1 =
        Except.ok txId ∧
      (createExpenseTransaction sampleNegativeInput false
          (St.init emptyDB)).2.current.postings = emptyDB.postings ++ [p1, p2] ∧
      p1.amountCents = sampleNegativeInput.amountCents ∧
      p2.amountCents = sampleNegativeInput.amountCents ∧
      p1.direction = PostingDirection.DR ∧ p2.direction = PostingDirection.CR) ∧
    (sampleNegativeInput.amountCents ≤ 0 →
      expenseSchemaAmountOk (sampleNegativeInput.amountCents : Rat) = false) :=
  claim_C10_no_positivity_precondition emptyDB sampleNegativeInput (by decide) (by decide)

end LedgrStack
